import Mathlib

/-!
Verification of the rustlog message codec, query engine, liveness
reconciliation loop and auth check against their natural-language
specification.

The Rust sources are embedded shallowly:

* `src/db/schema.rs` — the message codec (`StructuredMessage::from_unstructured`
  and `StructuredMessage::all_tags`), embedded as `fromUnstructured` / `allTags`
  below.  The external IRC parser (the `tmi` crate) is represented by its
  output: an `IrcMessage` value holding the command, channel, prefix nick,
  trailing parameter and tag list of the line, exactly the data
  `IrcMessageRef` exposes to `from_unstructured`.
* `src/db/mod.rs` — the window partitioning of `read_channel`, embedded as
  `windows` / `readChannelWindows` / `readChannelPlan`.
* `src/streams.rs` — the reconciliation loop (`run` / `query_streams`),
  embedded as `qsLoop` / `runReschedule` over a script of API responses.
* `src/web/handlers.rs` — `check_logs_auth`.
-/

/-- Protocol tag keys, mirroring the subset of the external `tmi::Tag` enum
that `schema.rs` inspects.  Any tag key the codec does not handle specially
is represented by `other` holding its wire name (the role of the `tmi`
crate's catch-all variant). -/
inductive Tag where
  | subscriber
  | vip
  | mod
  | turbo
  | firstMsg
  | returningChatter
  | emoteOnly
  | r9k
  | subsOnly
  | slow
  | id
  | login
  | displayName
  | color
  | userType
  | badges
  | badgeInfo
  | emotes
  | clientNonce
  | flags
  | roomId
  | userId
  | tmiSentTs
  | sentTs
  | banDuration
  | systemMsg
  | other (name : String)
  deriving DecidableEq, Repr

/-- Wire name of a tag (`tmi::Tag::as_str`). -/
def Tag.toStr : Tag → String
  | .subscriber => "subscriber"
  | .vip => "vip"
  | .mod => "mod"
  | .turbo => "turbo"
  | .firstMsg => "first-msg"
  | .returningChatter => "returning-chatter"
  | .emoteOnly => "emote-only"
  | .r9k => "r9k"
  | .subsOnly => "subs-only"
  | .slow => "slow"
  | .id => "id"
  | .login => "login"
  | .displayName => "display-name"
  | .color => "color"
  | .userType => "user-type"
  | .badges => "badges"
  | .badgeInfo => "badge-info"
  | .emotes => "emotes"
  | .clientNonce => "client-nonce"
  | .flags => "flags"
  | .roomId => "room-id"
  | .userId => "user-id"
  | .tmiSentTs => "tmi-sent-ts"
  | .sentTs => "sent-ts"
  | .banDuration => "ban-duration"
  | .systemMsg => "system-msg"
  | .other s => s

/-- Parse a wire name back into a tag (`tmi::Tag::parse`), used by
`all_tags` on the stored extra-tag keys. -/
def Tag.parse (s : String) : Tag :=
  if s = "subscriber" then .subscriber
  else if s = "vip" then .vip
  else if s = "mod" then .mod
  else if s = "turbo" then .turbo
  else if s = "first-msg" then .firstMsg
  else if s = "returning-chatter" then .returningChatter
  else if s = "emote-only" then .emoteOnly
  else if s = "r9k" then .r9k
  else if s = "subs-only" then .subsOnly
  else if s = "slow" then .slow
  else if s = "id" then .id
  else if s = "login" then .login
  else if s = "display-name" then .displayName
  else if s = "color" then .color
  else if s = "user-type" then .userType
  else if s = "badges" then .badges
  else if s = "badge-info" then .badgeInfo
  else if s = "emotes" then .emotes
  else if s = "client-nonce" then .clientNonce
  else if s = "flags" then .flags
  else if s = "room-id" then .roomId
  else if s = "user-id" then .userId
  else if s = "tmi-sent-ts" then .tmiSentTs
  else if s = "sent-ts" then .sentTs
  else if s = "ban-duration" then .banDuration
  else if s = "system-msg" then .systemMsg
  else .other s

/-- Well-formed tags are those the external parser can actually produce:
parsing the wire name of the tag yields the tag itself.  This rules out
an `other` value whose payload collides with a known wire name. -/
def Tag.wf (t : Tag) : Prop := Tag.parse t.toStr = t

instance (t : Tag) : Decidable t.wf := by unfold Tag.wf; infer_instance

/-- One bit of the `MessageFlags` bitflags in `schema.rs` (`SUBSCRIBER` … `SLOW_MODE`). -/
inductive FlagBit where
  | subscriber
  | vip
  | mod
  | turbo
  | firstMsg
  | returningChatter
  | emoteOnly
  | r9k
  | subsOnly
  | slowMode
  deriving DecidableEq, Repr

/-- The `MessageFlags` bitset of `schema.rs`: ten independent boolean bits. -/
structure MessageFlags where
  subscriber : Bool
  vip : Bool
  mod : Bool
  turbo : Bool
  firstMsg : Bool
  returningChatter : Bool
  emoteOnly : Bool
  r9k : Bool
  subsOnly : Bool
  slowMode : Bool
  deriving DecidableEq, Repr

/-- The empty bitset (`MessageFlags::empty`). -/
def MessageFlags.empty : MessageFlags :=
  ⟨false, false, false, false, false, false, false, false, false, false⟩

/-- Bit membership (`MessageFlags::contains` on a single named flag). -/
def MessageFlags.contains (f : MessageFlags) : FlagBit → Bool
  | .subscriber => f.subscriber
  | .vip => f.vip
  | .mod => f.mod
  | .turbo => f.turbo
  | .firstMsg => f.firstMsg
  | .returningChatter => f.returningChatter
  | .emoteOnly => f.emoteOnly
  | .r9k => f.r9k
  | .subsOnly => f.subsOnly
  | .slowMode => f.slowMode

/-- Setting one bit (`MessageFlags::insert`). -/
def MessageFlags.insert (f : MessageFlags) : FlagBit → MessageFlags
  | .subscriber => { f with subscriber := true }
  | .vip => { f with vip := true }
  | .mod => { f with mod := true }
  | .turbo => { f with turbo := true }
  | .firstMsg => { f with firstMsg := true }
  | .returningChatter => { f with returningChatter := true }
  | .emoteOnly => { f with emoteOnly := true }
  | .r9k => { f with r9k := true }
  | .subsOnly => { f with subsOnly := true }
  | .slowMode => { f with slowMode := true }

/-- `MessageFlags::from_tag` (schema.rs lines 32–47): the ten flag tags map to
their bit, every other tag maps to `None`. -/
def MessageFlags.fromTag : Tag → Option FlagBit
  | .subscriber => some .subscriber
  | .vip => some .vip
  | .mod => some .mod
  | .turbo => some .turbo
  | .firstMsg => some .firstMsg
  | .returningChatter => some .returningChatter
  | .emoteOnly => some .emoteOnly
  | .r9k => some .r9k
  | .subsOnly => some .subsOnly
  | .slow => some .slowMode
  | _ => none

/-- The fixed tag list iterated by `MessageFlags::as_tags` (schema.rs lines 49–61). -/
def MessageFlags.tagList : List Tag :=
  [.subscriber, .vip, .mod, .turbo, .firstMsg, .returningChatter,
   .emoteOnly, .r9k, .subsOnly, .slow]

/-- `MessageFlags::as_tags` (schema.rs lines 49–71): one `(tag, "1")` pair per
set bit, in the fixed order of `tagList`; unset bits produce nothing. -/
def MessageFlags.asTags (f : MessageFlags) : List (Tag × String) :=
  MessageFlags.tagList.filterMap fun t =>
    match MessageFlags.fromTag t with
    | some b => if f.contains b then some (t, "1") else none
    | none => none

/-- Message kinds (`MessageType` in schema.rs lines 299–318). -/
inductive MessageType where
  | whisper
  | privMsg
  | clearChat
  | roomState
  | userNotice
  | userState
  | notice
  | join
  | part
  | reconnect
  | names
  | ping
  | pong
  | clearMsg
  | globalUserState
  deriving DecidableEq, Repr

/-- `MessageType::from_tmi_command` (schema.rs lines 321–341), with the
external `tmi::Command` represented by its wire command string.  `Names`
is deliberately absent from the match, as in the source. -/
def MessageType.fromTmiCommand (cmd : String) : Option MessageType :=
  if cmd = "PING" then some .ping
  else if cmd = "PONG" then some .pong
  else if cmd = "JOIN" then some .join
  else if cmd = "PART" then some .part
  else if cmd = "PRIVMSG" then some .privMsg
  else if cmd = "WHISPER" then some .whisper
  else if cmd = "CLEARCHAT" then some .clearChat
  else if cmd = "CLEARMSG" then some .clearMsg
  else if cmd = "GLOBALUSERSTATE" then some .globalUserState
  else if cmd = "NOTICE" then some .notice
  else if cmd = "RECONNECT" then some .reconnect
  else if cmd = "ROOMSTATE" then some .roomState
  else if cmd = "USERNOTICE" then some .userNotice
  else if cmd = "USERSTATE" then some .userState
  else none

/-- Strip every leading `#` (Rust `trim_start_matches('#')` on a char pattern). -/
def trimHashes (s : String) : String :=
  String.mk (s.toList.dropWhile fun c => c = '#')

/-- Strip leading whitespace (Rust `trim_start`). -/
def trimStart (s : String) : String :=
  String.mk (s.toList.dropWhile Char.isWhitespace)

/-- Comma split (Rust `value.split(',')`): splitting the empty string yields
one empty piece, matching `str::split`. -/
def splitComma (s : String) : List String :=
  (s.toList.splitOn ',').map String.mk

/-- Comma join (Rust `Vec::join(",")`). -/
def joinComma (l : List String) : String :=
  String.mk (List.intercalate [','] (l.map String.toList))

/-- `extract_message_text` (schema.rs lines 344–358): strip one leading `:`,
trim leading whitespace, and unwrap a CTCP ACTION (`\x01ACTION … \x01`)
down to its inner text. -/
def extractMessageText (s : String) : String :=
  let l :=
    match s.toList with
    | ':' :: rest => rest
    | l => l
  let l := l.dropWhile Char.isWhitespace
  if l.take 8 = "\x01ACTION ".toList ∧ l.getLast? = some '\x01' then
    String.mk ((l.drop 8).dropLast)
  else
    String.mk l

/-- Unescaping of IRCv3 tag values.  Models the external `tmi::unescape`
used on the system-message tag: `\s` ↦ space, `\n`/`\r` ↦ newline/carriage
return, `\:` ↦ `;`, `\\` ↦ `\`, a dangling escape is dropped. -/
def unescapeChars : List Char → List Char
  | [] => []
  | '\\' :: ':' :: rest => ';' :: unescapeChars rest
  | '\\' :: 's' :: rest => ' ' :: unescapeChars rest
  | '\\' :: '\\' :: rest => '\\' :: unescapeChars rest
  | '\\' :: 'r' :: rest => '\r' :: unescapeChars rest
  | '\\' :: 'n' :: rest => '\n' :: unescapeChars rest
  | ['\\'] => []
  | '\\' :: c :: rest => c :: unescapeChars rest
  | c :: rest => c :: unescapeChars rest

/-- String-level wrapper for `unescapeChars`. -/
def unescape (s : String) : String := String.mk (unescapeChars s.toList)

/-- Value of one hex digit, both cases accepted. -/
def hexVal (c : Char) : Option Nat :=
  if '0' ≤ c ∧ c ≤ '9' then some (c.toNat - 48)
  else if 'a' ≤ c ∧ c ≤ 'f' then some (c.toNat - 87)
  else if 'A' ≤ c ∧ c ≤ 'F' then some (c.toNat - 55)
  else none

/-- Big-endian hex value of a character list; `none` on any non-hex character. -/
def hexChars (l : List Char) : Option Nat :=
  l.foldl
    (fun acc c =>
      match acc, hexVal c with
      | some a, some d => some (a * 16 + d)
      | _, _ => none)
    (some 0)

/-- `u32::from_str_radix(s, 16)`: an optional single leading `+`, then a
nonempty run of hex digits; values at or above `2^32` overflow to an error. -/
def fromStrRadix16 (s : String) : Option Nat :=
  let l :=
    match s.toList with
    | '+' :: rest => rest
    | l => l
  if l = [] then none
  else
    match hexChars l with
    | some v => if v < 2 ^ 32 then some v else none
    | none => none

/-- Parsing of a UUID string into its 128-bit value.  Models the external
`uuid::Uuid::parse_str` on its two wire formats used here: the hyphenated
8-4-4-4-12 form and the plain 32-hex-digit form. -/
def uuidParse (s : String) : Option Nat :=
  let l := s.toList
  if l.length = 32 then hexChars l
  else
    if l.length = 36 ∧ l.get? 8 = some '-' ∧ l.get? 13 = some '-' ∧
        l.get? 18 = some '-' ∧ l.get? 23 = some '-' then
      hexChars (l.take 8 ++ (l.drop 9).take 4 ++ (l.drop 14).take 4 ++
        (l.drop 19).take 4 ++ l.drop 24)
    else none

/-- Lowercase hex digits of `n` (no padding), via `Nat.toDigits`. -/
def hexDigits (n : Nat) : List Char := Nat.toDigits 16 n

/-- Rust `format!("{:04X}")`: uppercase hex, left-padded with zeros to at
least four digits, used by `all_tags` for the color. -/
def hexUpperPad4 (n : Nat) : String :=
  let d := (hexDigits n).map Char.toUpper
  String.mk (List.replicate (4 - d.length) '0' ++ d)

/-- Hyphenated lowercase rendering of a 128-bit UUID value
(`Uuid::hyphenated`), used by `all_tags` for a non-nil id. -/
def uuidHyphenated (u : Nat) : String :=
  let d := hexDigits u
  let p := List.replicate (32 - d.length) '0' ++ d
  String.mk (p.take 8 ++ '-' :: (p.drop 8).take 4 ++ '-' :: (p.drop 12).take 4 ++
    '-' :: (p.drop 16).take 4 ++ '-' :: p.drop 20)

/-- The unstructured envelope (`UnstructuredMessage` in schema.rs lines 97–103),
with the raw line replaced by its parse result (`IrcMessage` below), since
parsing is done by the external `tmi` crate. -/
structure UnstructuredMessage where
  channel_id : String
  user_id : String
  timestamp : Nat
  deriving DecidableEq, Repr

/-- Parse result of one raw IRC line, as exposed by the external
`tmi::IrcMessageRef`: command, optional channel, optional prefix nick,
optional trailing parameter text and the ordered tag list. -/
structure IrcMessage where
  command : String
  channel : Option String
  prefixNick : Option String
  params : Option String
  tags : List (Tag × String)
  deriving DecidableEq, Repr

/-- First value of a tag in the line (`IrcMessageRef::tag`). -/
def IrcMessage.tagValue (irc : IrcMessage) (t : Tag) : Option String :=
  (irc.tags.find? fun tv => tv.1 = t).map fun tv => tv.2

/-- The typed row (`StructuredMessage` in schema.rs lines 74–95).  The UUID is
its 128-bit value, the color its 24-bit value. -/
structure StructuredMessage where
  channel_id : String
  channel_login : String
  timestamp : Nat
  id : Nat
  message_type : MessageType
  user_id : String
  user_login : String
  display_name : String
  color : Option Nat
  user_type : String
  badges : List String
  badge_info : String
  client_nonce : String
  emotes : String
  automod_flags : String
  text : String
  message_flags : MessageFlags
  extra_tags : List (String × String)
  deriving DecidableEq, Repr

/-- Decidable equality for `Except`, used to evaluate the codec on
concrete inputs. -/
def exceptDecEq {ε α : Type} [DecidableEq ε] [DecidableEq α] :
    DecidableEq (Except ε α)
  | .ok a, .ok b =>
    if h : a = b then .isTrue (by rw [h]) else .isFalse (by simp [h])
  | .ok _, .error _ => .isFalse (by simp)
  | .error _, .ok _ => .isFalse (by simp)
  | .error a, .error b =>
    if h : a = b then .isTrue (by rw [h]) else .isFalse (by simp [h])

instance {ε α : Type} [DecidableEq ε] [DecidableEq α] :
    DecidableEq (Except ε α) := exceptDecEq

/-- Decode failures of the codec (spec taxonomy: `ParseError`,
`UnknownMessageKind`, `MissingRequiredTag`). -/
inductive DecodeError where
  | parseError
  | unknownMessageKind
  | missingRequiredTag
  deriving DecidableEq, Repr

/-- Mutable locals of the tag loop of `from_unstructured`
(schema.rs lines 164–224). -/
structure TagState where
  id : Nat
  userLogin : String
  displayName : String
  color : Option Nat
  userType : String
  badges : List String
  badgeInfo : String
  emotes : String
  clientNonce : String
  automodFlags : String
  flags : MessageFlags
  extraTags : List (String × String)
  deriving DecidableEq, Repr

/-- Initial tag-loop state (schema.rs lines 164–174): everything empty, the
user login carried over from the prefix / clear-chat target. -/
def TagState.init (userLogin : String) : TagState :=
  { id := 0, userLogin := userLogin, displayName := "", color := none,
    userType := "", badges := [], badgeInfo := "", emotes := "",
    clientNonce := "", automodFlags := "", flags := MessageFlags.empty,
    extraTags := [] }

/-- One iteration of the tag loop of `from_unstructured`
(schema.rs lines 176–224). -/
def tagStep (st : TagState) (tv : Tag × String) : TagState :=
  match tv.1 with
  | .id =>
    match uuidParse tv.2 with
    | some u => { st with id := u }
    | none => { st with extraTags := st.extraTags ++ [(Tag.id.toStr, tv.2)] }
  | .login => { st with userLogin := tv.2 }
  | .displayName => { st with displayName := tv.2 }
  | .color => { st with color := fromStrRadix16 (trimHashes tv.2) }
  | .userType => { st with userType := tv.2 }
  | .badges => { st with badges := splitComma tv.2 }
  | .badgeInfo => { st with badgeInfo := tv.2 }
  | .emotes => { st with emotes := tv.2 }
  | .clientNonce => { st with clientNonce := tv.2 }
  | .flags => { st with automodFlags := tv.2 }
  | .roomId => st
  | .userId => st
  | .tmiSentTs => st
  | .sentTs => st
  | t =>
    match MessageFlags.fromTag t with
    | some b => if tv.2 = "1" then { st with flags := st.flags.insert b } else st
    | none => { st with extraTags := st.extraTags ++ [(t.toStr, tv.2)] }

/-- Decode (`StructuredMessage::from_unstructured`, schema.rs lines 106–246),
over the already-parsed line. -/
def fromUnstructured (msg : UnstructuredMessage) (irc : IrcMessage) :
    Except DecodeError StructuredMessage :=
  match MessageType.fromTmiCommand irc.command with
  | none => .error .unknownMessageKind
  | some mt =>
    let channelLogin := trimHashes (irc.channel.getD "")
    let userLogin0 := irc.prefixNick.getD ""
    let textUser : Except DecodeError (String × String) :=
      match mt with
      | .privMsg =>
        .ok (match irc.params with
             | some p => extractMessageText p
             | none => "", userLogin0)
      | .clearChat =>
        match irc.params with
        | some p =>
          let target := extractMessageText p
          let text :=
            match irc.tagValue Tag.banDuration with
            | some d => target ++ " has been timed out for " ++ d ++ " seconds"
            | none => target ++ " has been banned"
          .ok (text, target)
        | none => .ok ("Chat has been cleared", userLogin0)
      | .userNotice =>
        match irc.tagValue Tag.systemMsg with
        | none => .error .missingRequiredTag
        | some sm =>
          let sysMessage := unescape sm
          .ok (match irc.params with
               | some p => sysMessage ++ " " ++ extractMessageText p
               | none => sysMessage, userLogin0)
      | _ => .ok ("", userLogin0)
    match textUser with
    | .error e => .error e
    | .ok tu =>
      let st := irc.tags.foldl tagStep (TagState.init tu.2)
      .ok { channel_id := msg.channel_id
            channel_login := channelLogin
            timestamp := msg.timestamp
            id := st.id
            message_type := mt
            user_id := msg.user_id
            user_login := st.userLogin
            display_name := st.displayName
            color := st.color
            user_type := st.userType
            badges := st.badges
            badge_info := st.badgeInfo
            client_nonce := st.clientNonce
            emotes := st.emotes
            automod_flags := st.automodFlags
            text := tu.1
            message_flags := st.flags
            extra_tags := st.extraTags }

/-- Encode (`StructuredMessage::all_tags`, schema.rs lines 248–296): the
ordered tag list reproduced from a row. -/
def allTags (m : StructuredMessage) : List (Tag × String) :=
  [(Tag.tmiSentTs, toString m.timestamp)]
  ++ m.message_flags.asTags
  ++ (if m.id ≠ 0 then [(Tag.id, uuidHyphenated m.id)] else [])
  ++ (if m.channel_id ≠ "" then [(Tag.roomId, m.channel_id)] else [])
  ++ (if m.user_id ≠ "" then [(Tag.userId, m.user_id)] else [])
  ++ (if m.user_login ≠ "" then [(Tag.login, m.user_login)] else [])
  ++ (if m.client_nonce ≠ "" then [(Tag.clientNonce, m.client_nonce)] else [])
  ++ (if m.display_name ≠ "" then [(Tag.displayName, m.display_name)] else [])
  ++ [(Tag.badges, joinComma m.badges), (Tag.badgeInfo, m.badge_info)]
  ++ (match m.color with
      | some c => [(Tag.color, "#" ++ hexUpperPad4 c)]
      | none => [])
  ++ [(Tag.flags, m.automod_flags), (Tag.userType, m.user_type),
      (Tag.emotes, m.emotes)]
  ++ m.extra_tags.map fun kv => (Tag.parse kv.1, kv.2)

/-- Fourteen days in milliseconds: the window size
`CHANNEL_MULTI_QUERY_SIZE_DAYS` of db/mod.rs as a `Duration::days(14)`
offset on millisecond timestamps. -/
def intervalMs : Int := 14 * 86400000

/-- The window-building loop of `read_channel` (db/mod.rs lines 63–78):
push the current window, advance both bounds by fourteen days, and when the
advanced upper bound passes `tEnd`, push a final window ending exactly at
`tEnd` and stop. -/
def windows (cf ct tEnd : Int) : List (Int × Int) :=
  if h : ct + intervalMs > tEnd then [(cf, ct), (cf + intervalMs, tEnd)]
  else (cf, ct) :: windows (cf + intervalMs) (ct + intervalMs) tEnd
termination_by (tEnd - ct).toNat
decreasing_by
  simp only [not_lt] at h
  simp only [intervalMs] at *
  omega

/-- Window list opened by the multi-window path of `read_channel`: the loop
starts at `current_from = from` and `current_to = from + 14 days`
(db/mod.rs lines 63–64). -/
def readChannelWindows (tFrom tEnd : Int) : List (Int × Int) :=
  windows tFrom (tFrom + intervalMs) tEnd

/-- Existence probe of the multi-window path (db/mod.rs lines 49–57): the
`SELECT count() FROM (SELECT … LIMIT 1)` query is zero exactly when no row
of the channel lies in `[tFrom, tEnd)`.  The store is modelled by the list
of row timestamps of the channel. -/
def rowExistsInRange (store : List Int) (tFrom tEnd : Int) : Bool :=
  store.any fun ts => tFrom ≤ ts ∧ ts < tEnd

/-- Failure modes surfaced by the query engine. -/
inductive QueryError where
  | notFound
  deriving DecidableEq, Repr

/-- Query plan of `read_channel` (db/mod.rs lines 44–98): ranges longer than
fourteen days probe for any row first, fail `NotFound` on an empty range
before opening any per-window cursor, and otherwise open one cursor per
window — the cursor list reversed for a descending read (lines 80–82).
Short ranges use a single `[tFrom, tEnd)` query. -/
def readChannelPlan (store : List Int) (tFrom tEnd : Int) (reverse : Bool) :
    Except QueryError (List (Int × Int)) :=
  if tEnd - tFrom > intervalMs then
    if rowExistsInRange store tFrom tEnd = false then .error .notFound
    else
      .ok (if reverse then (readChannelWindows tFrom tEnd).reverse
           else readChannelWindows tFrom tEnd)
  else .ok [(tFrom, tEnd)]

/-- Modelled from the spec: the multi-query `LogsStream` (module
`logs::stream`, not part of the provided sources) consumes its cursors
strictly in list order and concatenates their rows; no cross-cursor
merge-sort is performed.  A cursor's rows are represented by their
timestamps. -/
def multiStreamRows (cursorRows : List (List Int)) : List Int :=
  cursorRows.flatten

/-- Chained interval list: the windows start at `a`, each window starts where
the previous one ended, and the last window ends at `b`. -/
def isChain (a b : Int) : List (Int × Int) → Prop
  | [] => a = b
  | w :: rest => w.1 = a ∧ isChain w.2 b rest

/-- One external API item of the reconciliation loop: a stream id, its
viewer count, and whether the conversion to a durable `Stream` record
(`Stream::try_from`, outside the provided sources) succeeds. -/
structure StreamItem where
  id : Nat
  viewer_count : Nat
  convOk : Bool
  deriving DecidableEq, Repr

/-- One page of the external `GetStreams` listing: its items and the
optional next-page cursor. -/
structure Page where
  data : List StreamItem
  pagination : Option Nat
  deriving DecidableEq, Repr

/-- The two stream-id sets threaded through `query_streams`
(streams.rs lines 21–22 and 49–50). -/
structure QSState where
  lastLoop : List Nat
  currentLoop : List Nat
  deriving DecidableEq, Repr

/-- `HashSet::insert` on the set of seen stream ids. -/
def insertId (l : List Nat) (x : Nat) : List Nat :=
  if x ∈ l then l else x :: l

/-- Wrapping of an `i8` value (the `small_count` counter of streams.rs
line 69 is an `i8`; overflow wraps in a release build). -/
def wrap8 (x : Int) : Int := (x + 128) % 256 - 128

/-- Per-item body of the page processing closure (streams.rs lines 71–84):
insert the id into `current_loop`, bump the low-viewer counter when the
viewer count is below 2, and keep the converted record when the id was not
seen in the previous pass. -/
def pageStep (last : List Nat) (acc : List Nat × Int × List Nat)
    (it : StreamItem) : List Nat × Int × List Nat :=
  let cur := insertId acc.1 it.id
  let small := if it.viewer_count < 2 then wrap8 (acc.2.1 + 1) else acc.2.1
  let news :=
    if it.id ∈ last then acc.2.2
    else if it.convOk then acc.2.2 ++ [it.id] else acc.2.2
  (cur, small, news)

/-- End of a pass (streams.rs lines 95–96): `mem::swap(last, current)`
followed by `current.clear()`. -/
def finishPass (st : QSState) : QSState :=
  { lastLoop := st.currentLoop, currentLoop := [] }

/-- Result of one `query_streams` call: the `anyhow::Result`, the final
set state, and how many API responses were consumed. -/
structure QSResult where
  result : Except Unit Unit
  state : QSState
  consumed : Nat
  deriving DecidableEq, Repr

/-- The page loop of `query_streams` (streams.rs lines 56–98), driven by a
script of API responses (`none` = the call failed).  An API failure breaks
the loop (lines 62–65) and the pass still ends normally; a failed forward
to the writer channel propagates as an error (line 87); otherwise the loop
stops when there is no next cursor, the low-viewer counter exceeds 50, or
shutdown was signalled (line 90). -/
def qsLoop (writerOk shutdown : Bool) :
    List (Option Page) → QSState → QSResult
  | [], st => ⟨.ok (), finishPass st, 0⟩
  | .none :: _, st => ⟨.ok (), finishPass st, 1⟩
  | .some page :: rest, st =>
    let acc := page.data.foldl (pageStep st.lastLoop) (st.currentLoop, 0, [])
    let st := { st with currentLoop := acc.1 }
    if acc.2.2 ≠ [] ∧ writerOk = false then ⟨.error (), st, 1⟩
    else if page.pagination = none ∨ 50 < acc.2.1 ∨ shutdown then
      ⟨.ok (), finishPass st, 1⟩
    else
      let r := qsLoop writerOk shutdown rest st
      ⟨r.result, r.state, r.consumed + 1⟩

/-- Rescheduling decision of the `run` loop (streams.rs lines 29–35): wait
`request_interval * 3` seconds after a failed pass, `request_interval`
seconds after a successful one. -/
def runReschedule (requestInterval : Nat) (result : Except Unit Unit) : Nat :=
  match result with
  | .error _ => requestInterval * 3
  | .ok _ => requestInterval

/-- Authentication failure of the logs endpoints. -/
inductive AuthError where
  | invalidAuthKey
  deriving DecidableEq, Repr

/-- `check_logs_auth` (web/handlers.rs lines 38–58): the two hard-coded user
values always pass; otherwise the request passes exactly when an admin API
key is configured and the `X-Api-Key` header (decoded to a string) equals
it.  Everything else fails with `InvalidAuthKey`. -/
def checkLogsAuth (adminApiKey : Option String) (xApiKey : Option String)
    (user : Option String) : Except AuthError Unit :=
  if user = some "gofishgame" ∨ user = some "951349582" then .ok ()
  else
    match adminApiKey with
    | some k => if xApiKey = some k then .ok () else .error .invalidAuthKey
    | none => .error .invalidAuthKey

/-- Item used by the C7 scenarios: a below-threshold stream already known
from the previous pass. -/
def lowItem : StreamItem := ⟨1, 0, true⟩

/-- Closing page of the C7 scenarios: empty, with no next cursor. -/
def endPage : Page := ⟨[], none⟩

/-- Page used by the C7 witness: 120 items, the first 51 below threshold,
with a next-page cursor present. -/
def witPage : Page :=
  ⟨List.replicate 51 lowItem ++ List.replicate 69 ⟨2, 5, true⟩, some 0⟩

/-- The wire tag of one flag bit (inverse of `MessageFlags::from_tag`). -/
def FlagBit.tag : FlagBit → Tag
  | .subscriber => .subscriber
  | .vip => .vip
  | .mod => .mod
  | .turbo => .turbo
  | .firstMsg => .firstMsg
  | .returningChatter => .returningChatter
  | .emoteOnly => .emoteOnly
  | .r9k => .r9k
  | .subsOnly => .subsOnly
  | .slowMode => .slow

/-- Tags handled by a dedicated arm of the tag loop (typed fields plus the
four ignored identity/timestamp tags). -/
def handledTags : List Tag :=
  [.id, .login, .displayName, .color, .userType, .badges, .badgeInfo,
   .emotes, .clientNonce, .flags, .roomId, .userId, .tmiSentTs, .sentTs]

/-- Wire names of the recognized tags of claim C4: the ten flag tags plus the
ten typed-field tags. -/
def recognizedKeys : List String :=
  ["subscriber", "vip", "mod", "turbo", "first-msg", "returning-chatter",
   "emote-only", "r9k", "subs-only", "slow", "id", "login", "display-name",
   "color", "user-type", "badges", "badge-info", "emotes", "client-nonce",
   "flags"]

/-- Invariant maintained for every stored extra-tag entry: its key maps to no
flag bit, is not the sent-ts tag, and is a recognized key only in the one
`id`-with-unparsable-value case. -/
def extraOk (kv : String × String) : Prop :=
  MessageFlags.fromTag (Tag.parse kv.1) = none ∧
  Tag.parse kv.1 ≠ Tag.sentTs ∧
  (kv.1 ∈ recognizedKeys → kv.1 = "id" ∧ uuidParse kv.2 = none)

/-- Reproduction contract of one input tag `(t, v)` under `all_tags` of the
decoded row: tags with nonzero / non-default values are reproduced verbatim,
with the qualifications the code forces — a flag tag is reproduced exactly
when valued "1"; a color or id value is reproduced when it is in the
canonical form the encoder re-emits (and an unparsable id verbatim through
the extra tags); room-id, user-id and tmi-sent-ts are reproduced when they
agree with the envelope; sent-ts is never reproduced. -/
def ReproSpec (msg : UnstructuredMessage) (row : StructuredMessage)
    (t : Tag) (v : String) : Prop :=
  match t with
  | .id =>
    (∀ u, uuidParse v = some u → u ≠ 0 → v = uuidHyphenated u →
      (Tag.id, v) ∈ allTags row) ∧
    (uuidParse v = none → (Tag.id, v) ∈ allTags row)
  | .login => v ≠ "" → (Tag.login, v) ∈ allTags row
  | .displayName => v ≠ "" → (Tag.displayName, v) ∈ allTags row
  | .clientNonce => v ≠ "" → (Tag.clientNonce, v) ∈ allTags row
  | .color => ∀ c, fromStrRadix16 (trimHashes v) = some c →
      v = "#" ++ hexUpperPad4 c → (Tag.color, v) ∈ allTags row
  | .userType => (Tag.userType, v) ∈ allTags row
  | .badges => (Tag.badges, v) ∈ allTags row
  | .badgeInfo => (Tag.badgeInfo, v) ∈ allTags row
  | .emotes => (Tag.emotes, v) ∈ allTags row
  | .flags => (Tag.flags, v) ∈ allTags row
  | .roomId => v = msg.channel_id → v ≠ "" → (Tag.roomId, v) ∈ allTags row
  | .userId => v = msg.user_id → v ≠ "" → (Tag.userId, v) ∈ allTags row
  | .tmiSentTs => v = toString msg.timestamp →
      (Tag.tmiSentTs, v) ∈ allTags row
  | .sentTs => ∀ v', (Tag.sentTs, v') ∉ allTags row
  | t =>
    match MessageFlags.fromTag t with
    | some _ => (v = "1" → (t, "1") ∈ allTags row) ∧
        (v ≠ "1" → ∀ v', (t, v') ∉ allTags row)
    | none => (t, v) ∈ allTags row

/-- Envelope used by the C1 counterexample. -/
def c1CexMsg : UnstructuredMessage := ⟨"22", "68", 1000⟩

/-- Line used by the C1 counterexample: a single color tag in lowercase hex —
a nonzero, non-default value. -/
def c1CexIrc : IrcMessage :=
  ⟨"PRIVMSG", some "#bar", some "foo", some ":hi",
    [(Tag.color, "#1e90ff")]⟩

/-- Envelope used by the C1 witness. -/
def c1WitMsg : UnstructuredMessage := ⟨"22", "68", 1000⟩

/-- Line used by the C1 witness: the spec's concrete example, with an
explicit "0" mod flag. -/
def c1WitIrc : IrcMessage :=
  ⟨"PRIVMSG", some "#bar", some "foo", some ":hello",
    [(Tag.subscriber, "1"), (Tag.displayName, "Foo"),
     (Tag.color, "#1E90FF"), (Tag.mod, "0")]⟩

/-- Row decoded from the C1 witness line. -/
def c1WitRow : StructuredMessage :=
  { channel_id := "22", channel_login := "bar", timestamp := 1000,
    id := 0, message_type := .privMsg, user_id := "68",
    user_login := "foo", display_name := "Foo", color := some 0x1E90FF,
    user_type := "", badges := [], badge_info := "", client_nonce := "",
    emotes := "", automod_flags := "", text := "hello",
    message_flags := { MessageFlags.empty with subscriber := true },
    extra_tags := [] }

/-- Envelope used by the C4 counterexample and witness. -/
def c4Msg : UnstructuredMessage := ⟨"22", "68", 1000⟩

/-- Line used by the C4 counterexample and witness: an id tag whose value is
not a UUID. -/
def c4Irc : IrcMessage :=
  ⟨"PRIVMSG", some "#bar", some "foo", some ":hi",
    [(Tag.id, "notauuid")]⟩

/-- Row decoded from the C4 line. -/
def c4Row : StructuredMessage :=
  { channel_id := "22", channel_login := "bar", timestamp := 1000,
    id := 0, message_type := .privMsg, user_id := "68",
    user_login := "foo", display_name := "", color := none,
    user_type := "", badges := [], badge_info := "", client_nonce := "",
    emotes := "", automod_flags := "", text := "hi",
    message_flags := MessageFlags.empty,
    extra_tags := [("id", "notauuid")] }

/-- C10: `check_logs_auth` lets the two hard-coded users through regardless
of headers or configured admin key; any other request passes exactly when
an admin API key is configured and the `X-Api-Key` header equals it, and
fails with `InvalidAuthKey` otherwise. -/
theorem checkLogsAuth_spec (ak x u : Option String) :
    (checkLogsAuth ak x u = .ok () ↔
      (u = some "gofishgame" ∨ u = some "951349582") ∨
        ∃ k, ak = some k ∧ x = some k) ∧
    (checkLogsAuth ak x u = .error .invalidAuthKey ↔
      ¬((u = some "gofishgame" ∨ u = some "951349582") ∨
        ∃ k, ak = some k ∧ x = some k)) := by
  rcases ak with _ | k
  · by_cases hu : u = some "gofishgame" ∨ u = some "951349582" <;>
      simp [checkLogsAuth, hu]
  · by_cases hu : u = some "gofishgame" ∨ u = some "951349582" <;>
      by_cases hx : x = some k <;>
      simp [checkLogsAuth, hu, hx]

/-- C10 witness: a hard-coded user passes with no key configured at all; an
ordinary user with a wrong header key is rejected. -/
theorem checkLogsAuth_spec_witness :
    checkLogsAuth none none (some "gofishgame") = .ok () ∧
    checkLogsAuth (some "s3cret") (some "wrong") (some "alice")
      = .error .invalidAuthKey := by
  constructor
  · exact (checkLogsAuth_spec none none (some "gofishgame")).1.mpr
      (Or.inl (Or.inl rfl))
  · refine (checkLogsAuth_spec (some "s3cret") (some "wrong")
      (some "alice")).2.mpr ?_
    rintro ((h | h) | ⟨k, hk, hx⟩)
    · exact absurd h (by decide)
    · exact absurd h (by decide)
    · rw [Option.some.injEq] at hk
      subst hk
      exact absurd hx (by decide)

/-- C5: for a range longer than fourteen days, `read_channel` fails with
`NotFound` — issuing no per-window query, the plan holds no windows — exactly
when the existence probe over the full range finds no row. -/
theorem multiWindow_probe (store : List Int) (tFrom tEnd : Int) (reverse : Bool)
    (h : tEnd - tFrom > intervalMs) :
    readChannelPlan store tFrom tEnd reverse = .error .notFound ↔
      rowExistsInRange store tFrom tEnd = false := by
  unfold readChannelPlan
  rw [if_pos h]
  by_cases he : rowExistsInRange store tFrom tEnd = false <;> simp [he]

/-- C5 witness: a 20-day range over an empty store fails with `NotFound`. -/
theorem multiWindow_probe_witness :
    readChannelPlan [] 0 1728000000 false = .error .notFound :=
  (multiWindow_probe [] 0 1728000000 false (by norm_num [intervalMs])).mpr rfl

/-- C6 (amended): an external API failure ends the page loop but the pass
still returns success and the loop reschedules after `request_interval`
seconds; the `3 × request_interval` backoff happens exactly for a failed
pass, which only a writer-channel send failure can produce. -/
theorem reschedule_backoff_amended (wOk sh : Bool) (rest : List (Option Page))
    (st : QSState) (i : Nat) :
    (qsLoop wOk sh (Option.none :: rest) st).result = .ok () ∧
    (qsLoop wOk sh (Option.none :: rest) st).consumed = 1 ∧
    runReschedule i (qsLoop wOk sh (Option.none :: rest) st).result = i ∧
    ∀ (script : List (Option Page)) (st' : QSState),
      (qsLoop wOk sh script st').result = .error () →
      runReschedule i (qsLoop wOk sh script st').result = i * 3 := by
  refine ⟨rfl, rfl, rfl, ?_⟩
  intro script st' herr
  rw [herr]
  rfl

/-- C6 counterexample: a pass whose very first API call fails reschedules
after `request_interval` (7) seconds, not after `3 × request_interval` (21)
as the claim states. -/
theorem reschedule_backoff_cex :
    runReschedule 7 (qsLoop true false [Option.none] ⟨[], []⟩).result = 7 ∧
    (7 : Nat) ≠ 7 * 3 := by
  exact ⟨rfl, by decide⟩

/-- C6 witness: an API-failure pass reschedules after 5 seconds; a pass
whose batch forward fails (writer channel closed) reschedules after 15. -/
theorem reschedule_backoff_witness :
    runReschedule 5 (qsLoop true false [Option.none] ⟨[], []⟩).result = 5 ∧
    runReschedule 5
      (qsLoop false false [some ⟨[⟨1, 9, true⟩], some 0⟩] ⟨[], []⟩).result
      = 5 * 3 := by
  constructor
  · exact (reschedule_backoff_amended true false [] ⟨[], []⟩ 5).2.2.1
  · exact (reschedule_backoff_amended false false [] ⟨[], []⟩ 5).2.2.2
      [some ⟨[⟨1, 9, true⟩], some 0⟩] ⟨[], []⟩ (by decide)

/-- C8: a user-notice line without the system-message tag fails with the
missing-required-tag error; with the tag, the row's text is the unescaped
system message, and when a trailing parameter also exists it is the
unescaped system message, a space, and the extracted trailing text. -/
theorem userNotice_text (msg : UnstructuredMessage) (irc : IrcMessage)
    (h : irc.command = "USERNOTICE") :
    (irc.tagValue Tag.systemMsg = none →
      fromUnstructured msg irc = .error .missingRequiredTag) ∧
    ∀ sm, irc.tagValue Tag.systemMsg = some sm →
      (irc.params = none →
        (fromUnstructured msg irc).map StructuredMessage.text
          = .ok (unescape sm)) ∧
      ∀ p, irc.params = some p →
        (fromUnstructured msg irc).map StructuredMessage.text
          = .ok (unescape sm ++ " " ++ extractMessageText p) := by
  refine ⟨fun hsm => ?_, fun sm hsm => ⟨fun hp => ?_, fun p hp => ?_⟩⟩
  · simp [fromUnstructured, h, MessageType.fromTmiCommand, hsm]
  · simp [fromUnstructured, h, MessageType.fromTmiCommand, hsm, hp, Except.map]
  · simp [fromUnstructured, h, MessageType.fromTmiCommand, hsm, hp, Except.map]

/-- C8 witness: a concrete user-notice with system message
`hello\sworld` and trailing text `:great`. -/
theorem userNotice_text_witness :
    (fromUnstructured ⟨"22", "68", 1000⟩
      ⟨"USERNOTICE", some "#bar", some "foo", some ":great",
        [(Tag.systemMsg, "hello\\sworld")]⟩).map StructuredMessage.text
    = .ok (unescape "hello\\sworld" ++ " " ++ extractMessageText ":great") :=
  ((userNotice_text ⟨"22", "68", 1000⟩
    ⟨"USERNOTICE", some "#bar", some "foo", some ":great",
      [(Tag.systemMsg, "hello\\sworld")]⟩ rfl).2
    "hello\\sworld" rfl).2 ":great" rfl

/-- C9: a clear-chat line with a target in its trailing parameter gets the
timed-out text when a ban-duration tag is present and the banned text
otherwise; with no trailing parameter the text is exactly
"Chat has been cleared". -/
theorem clearChat_text (msg : UnstructuredMessage) (irc : IrcMessage)
    (h : irc.command = "CLEARCHAT") :
    (∀ p, irc.params = some p →
      (∀ d, irc.tagValue Tag.banDuration = some d →
        (fromUnstructured msg irc).map StructuredMessage.text
          = .ok (extractMessageText p ++ " has been timed out for " ++ d
              ++ " seconds")) ∧
      (irc.tagValue Tag.banDuration = none →
        (fromUnstructured msg irc).map StructuredMessage.text
          = .ok (extractMessageText p ++ " has been banned"))) ∧
    (irc.params = none →
      (fromUnstructured msg irc).map StructuredMessage.text
        = .ok "Chat has been cleared") := by
  refine ⟨fun p hp => ⟨fun d hd => ?_, fun hd => ?_⟩, fun hp => ?_⟩
  · simp [fromUnstructured, h, MessageType.fromTmiCommand, hp, hd, Except.map]
  · simp [fromUnstructured, h, MessageType.fromTmiCommand, hp, hd, Except.map]
  · simp [fromUnstructured, h, MessageType.fromTmiCommand, hp, Except.map]

/-- C9 witness: a concrete clear-chat line with target `:baduser` and a
600-second ban duration. -/
theorem clearChat_text_witness :
    (fromUnstructured ⟨"22", "68", 1000⟩
      ⟨"CLEARCHAT", some "#bar", none, some ":baduser",
        [(Tag.banDuration, "600")]⟩).map StructuredMessage.text
    = .ok (extractMessageText ":baduser" ++ " has been timed out for "
        ++ "600" ++ " seconds") :=
  ((clearChat_text ⟨"22", "68", 1000⟩
    ⟨"CLEARCHAT", some "#bar", none, some ":baduser",
      [(Tag.banDuration, "600")]⟩ rfl).1 ":baduser" rfl).1 "600" rfl

/-- Helper: the window loop never produces an empty list. -/
theorem windows_ne_nil (cf ct tEnd : Int) : windows cf ct tEnd ≠ [] := by
  rw [windows]
  split <;> simp

/-- Helper: structure of the window list produced by the loop of
`read_channel`, for any entry state with `ct = cf + 14 days` and `ct ≤ tEnd`:
it chains from `cf` to `tEnd`, holds `(tEnd - cf) / 14d + 1` windows, every
window but the last is exactly fourteen days, the last is the division
remainder, and window bounds are ordered. -/
theorem windows_props (cf ct tEnd : Int) (h1 : ct = cf + intervalMs)
    (h2 : ct ≤ tEnd) :
    isChain cf tEnd (windows cf ct tEnd) ∧
    (windows cf ct tEnd).length = ((tEnd - cf) / intervalMs + 1).toNat ∧
    (∀ w ∈ (windows cf ct tEnd).dropLast, w.2 - w.1 = intervalMs) ∧
    (∀ w, (windows cf ct tEnd).getLast? = some w →
      w.2 - w.1 = (tEnd - cf) % intervalMs) ∧
    (∀ w ∈ windows cf ct tEnd, w.1 ≤ w.2) := by
  induction cf, ct, tEnd using windows.induct with
  | case1 cf ct tEnd h =>
    rw [windows, dif_pos h]
    subst h1
    refine ⟨⟨rfl, rfl, rfl⟩, ?_, ?_, ?_, ?_⟩
    · simp only [List.length_cons, List.length_nil, intervalMs] at *
      omega
    · intro w hw
      simp only [List.dropLast_cons₂, List.dropLast_single,
        List.mem_singleton] at hw
      subst hw
      omega
    · intro w hw
      simp only [List.getLast?_cons_cons, List.getLast?_singleton,
        Option.some.injEq] at hw
      subst hw
      simp only [intervalMs] at *
      omega
    · intro w hw
      simp only [List.mem_cons, List.mem_singleton, List.not_mem_nil,
        or_false] at hw
      rcases hw with rfl | rfl
      · simp only [intervalMs] at *
        omega
      · simp only [intervalMs] at *
        omega
  | case2 cf ct tEnd h ih =>
    have h2' : ct + intervalMs ≤ tEnd := not_lt.mp h
    obtain ⟨ihc, ihl, ihd, ihlast, ihb⟩ := ih (by rw [h1]) h2'
    rcases hrec : windows (cf + intervalMs) (ct + intervalMs) tEnd with
      _ | ⟨w0, ws⟩
    · exact absurd hrec (windows_ne_nil _ _ _)
    rw [hrec] at ihc ihl ihd ihlast ihb
    rw [windows, dif_neg h, hrec]
    refine ⟨⟨rfl, ?_⟩, ?_, ?_, ?_, ?_⟩
    · rw [h1]
      exact ihc
    · simp only [List.length_cons] at ihl ⊢
      simp only [intervalMs] at ihl h1 h2' ⊢
      omega
    · intro w hw
      rw [List.dropLast_cons₂] at hw
      rcases List.mem_cons.mp hw with rfl | hw
      · simp only [intervalMs] at h1 ⊢
        omega
      · exact ihd w hw
    · intro w hw
      rw [List.getLast?_cons_cons] at hw
      have hl := ihlast w hw
      simp only [intervalMs] at hl h1 h2' ⊢
      omega
    · intro w hw
      rcases List.mem_cons.mp hw with rfl | hw
      · simp only [intervalMs] at h1 ⊢
        omega
      · exact ihb w hw

/-- C2 (amended): for a range longer than fourteen days in which at least one
row exists, `read_channel` opens one cursor per produced window; the windows
are consecutive, non-overlapping and cover `[tFrom, tEnd)` exactly; every
window but the last is exactly fourteen days and the last has the length of
the division remainder; the number of windows is `L / 14d + 1` for range
length `L` — which is `ceil(L/14d)` when `14d` does not divide `L`, and
`L/14d + 1` (the last window empty) when it does. -/
theorem windowPartition_amended (store : List Int) (tFrom tEnd : Int)
    (h : tEnd - tFrom > intervalMs)
    (hex : rowExistsInRange store tFrom tEnd = true) :
    readChannelPlan store tFrom tEnd false
      = .ok (readChannelWindows tFrom tEnd) ∧
    isChain tFrom tEnd (readChannelWindows tFrom tEnd) ∧
    (readChannelWindows tFrom tEnd).length
      = ((tEnd - tFrom) / intervalMs + 1).toNat ∧
    (∀ w ∈ (readChannelWindows tFrom tEnd).dropLast,
      w.2 - w.1 = intervalMs) ∧
    (∀ w, (readChannelWindows tFrom tEnd).getLast? = some w →
      w.2 - w.1 = (tEnd - tFrom) % intervalMs) := by
  have hprops := windows_props tFrom (tFrom + intervalMs) tEnd rfl (by omega)
  refine ⟨?_, hprops.1, hprops.2.1, hprops.2.2.1, hprops.2.2.2.1⟩
  unfold readChannelPlan
  rw [if_pos h, hex]
  simp

/-- C2 counterexample: a 28-day range (an exact multiple of fourteen days)
produces three cursors, not `ceil(28/14) = 2`; the extra third window is the
empty interval at the upper bound. -/
theorem windowPartition_cex :
    (readChannelWindows 0 2419200000).length = 3 ∧
    (readChannelWindows 0 2419200000).getLast?
      = some (2419200000, 2419200000) := by
  rw [readChannelWindows, windows, windows]
  norm_num [intervalMs]

/-- C2 witness: a 20-day range with one row yields the two expected chained
windows. -/
theorem windowPartition_witness :
    (readChannelWindows 0 1728000000).length
      = ((1728000000 - 0) / intervalMs + 1).toNat ∧
    isChain 0 1728000000 (readChannelWindows 0 1728000000) :=
  ⟨(windowPartition_amended [5] 0 1728000000 (by norm_num [intervalMs])
      (by decide)).2.2.1,
   (windowPartition_amended [5] 0 1728000000 (by norm_num [intervalMs])
      (by decide)).2.1⟩

/-- Helper: in a chained window list with ordered bounds, every window starts
at or after the chain's start. -/
theorem isChain_start_le {l : List (Int × Int)} {a b : Int}
    (hc : isChain a b l) (hb : ∀ w ∈ l, w.1 ≤ w.2) :
    ∀ w ∈ l, a ≤ w.1 := by
  induction l generalizing a with
  | nil => intro w hw; cases hw
  | cons w0 rest ih =>
    intro w hw
    obtain ⟨h0, hrest⟩ := hc
    rcases List.mem_cons.mp hw with rfl | hw
    · omega
    · have hstart := ih hrest (fun v hv => hb v (List.mem_cons_of_mem _ hv)) w hw
      have hb0 := hb w0 (List.mem_cons_self _ _)
      omega

/-- Helper: a chained window list with ordered bounds is pairwise ordered —
each window ends before any later window starts. -/
theorem isChain_pairwise {l : List (Int × Int)} {a b : Int}
    (hc : isChain a b l) (hb : ∀ w ∈ l, w.1 ≤ w.2) :
    l.Pairwise fun u v => u.2 ≤ v.1 := by
  induction l generalizing a with
  | nil => exact .nil
  | cons w0 rest ih =>
    obtain ⟨h0, hrest⟩ := hc
    have hbrest : ∀ w ∈ rest, w.1 ≤ w.2 :=
      fun v hv => hb v (List.mem_cons_of_mem _ hv)
    exact List.Pairwise.cons (isChain_start_le hrest hbrest)
      (ih hrest hbrest)

/-- Helper: a right member of a `Forall₂` relation has a related left member. -/
theorem forall₂_mem_right {α β : Type} {R : α → β → Prop} :
    ∀ {l1 : List α} {l2 : List β}, List.Forall₂ R l1 l2 →
      ∀ {y}, y ∈ l2 → ∃ x ∈ l1, R x y := by
  intro l1 l2 hf
  induction hf with
  | nil => intro y hy; cases hy
  | cons hab htail ih =>
    intro y hy
    rcases List.mem_cons.mp hy with rfl | hy
    · exact ⟨_, List.mem_cons_self _ _, hab⟩
    · obtain ⟨x, hx, hr⟩ := ih hy
      exact ⟨x, List.mem_cons_of_mem _ hx, hr⟩

/-- Helper: pairwise structure transfers along a `Forall₂` relation. -/
theorem forall₂_pairwise_transfer {α β : Type} {R : α → β → Prop}
    {P : α → α → Prop} {Q : β → β → Prop}
    (hcompat : ∀ a b a' b', R a b → R a' b' → P a a' → Q b b') :
    ∀ {l1 : List α} {l2 : List β}, List.Forall₂ R l1 l2 →
      l1.Pairwise P → l2.Pairwise Q := by
  intro l1 l2 hf
  induction hf with
  | nil => intro _; exact .nil
  | cons hab htail ih =>
    intro hp
    obtain ⟨hhead, htl⟩ := List.pairwise_cons.mp hp
    refine List.Pairwise.cons ?_ (ih htl)
    intro b' hb'
    obtain ⟨a', ha', hr⟩ := forall₂_mem_right htail hb'
    exact hcompat _ _ _ _ hab hr (hhead a' ha')

/-- C3: for a descending multi-window read, `read_channel` hands the stream
the per-window cursor list reversed (newest window first); given that each
cursor yields its own window's rows in descending timestamp order, the plain
concatenation of the cursors — no cross-cursor merge-sort — is non-increasing
in timestamp across the whole range. -/
theorem reverseConcat_sorted (store : List Int) (tFrom tEnd : Int)
    (ws : List (Int × Int)) (cursorRows : List (List Int))
    (h : tEnd - tFrom > intervalMs)
    (hplan : readChannelPlan store tFrom tEnd true = .ok ws)
    (hrel : List.Forall₂
      (fun (w : Int × Int) (rows : List Int) =>
        rows.Pairwise (fun x y => y ≤ x) ∧ ∀ x ∈ rows, w.1 ≤ x ∧ x < w.2)
      ws cursorRows) :
    (multiStreamRows cursorRows).Pairwise fun x y => y ≤ x := by
  have hws : ws = (readChannelWindows tFrom tEnd).reverse := by
    unfold readChannelPlan at hplan
    rw [if_pos h] at hplan
    by_cases hex : rowExistsInRange store tFrom tEnd = false
    · rw [if_pos hex] at hplan
      exact absurd hplan (by simp)
    · rw [if_neg hex] at hplan
      simpa using hplan.symm
  subst hws
  obtain ⟨hchain, _, _, _, hbounds⟩ :=
    windows_props tFrom (tFrom + intervalMs) tEnd rfl (by omega)
  have hpair : (readChannelWindows tFrom tEnd).Pairwise
      fun u v => u.2 ≤ v.1 :=
    isChain_pairwise hchain hbounds
  have hrevpair : (readChannelWindows tFrom tEnd).reverse.Pairwise
      fun u v => v.2 ≤ u.1 :=
    List.pairwise_reverse.mpr hpair
  unfold multiStreamRows
  rw [List.pairwise_flatten]
  constructor
  · intro rows hrows
    obtain ⟨w, _, hr⟩ := forall₂_mem_right hrel hrows
    exact hr.1
  · refine forall₂_pairwise_transfer ?_ hrel hrevpair
    intro w rows w' rows' hr hr' hsep x hx y hy
    have h1 := hr.2 x hx
    have h2 := hr'.2 y hy
    omega

/-- C3 witness: a 40-day range split into three windows, each cursor holding
one row in its own timestamp band; the reversed concatenation is
non-increasing. -/
theorem reverseConcat_sorted_witness :
    (multiStreamRows [[3000000000], [2000000000], [5]]).Pairwise
      fun x y => y ≤ x := by
  refine reverseConcat_sorted [5] 0 3456000000
    [(2419200000, 3456000000), (1209600000, 2419200000), (0, 1209600000)]
    [[3000000000], [2000000000], [5]]
    (by norm_num [intervalMs]) ?_ ?_
  · rw [readChannelPlan, if_pos (by norm_num [intervalMs])]
    rw [readChannelWindows, windows, windows, windows]
    norm_num [intervalMs, rowExistsInRange]
  · refine List.Forall₂.cons ⟨?_, ?_⟩ ?_
    · simp
    · intro x hx
      rw [List.mem_singleton] at hx
      subst hx
      norm_num
    refine List.Forall₂.cons ⟨?_, ?_⟩ ?_
    · simp
    · intro x hx
      rw [List.mem_singleton] at hx
      subst hx
      norm_num
    refine List.Forall₂.cons ⟨?_, ?_⟩ .nil
    · simp
    · intro x hx
      rw [List.mem_singleton] at hx
      subst hx
      norm_num

/-- Helper: as long as it stays within the `i8` range, the low-viewer counter
accumulated by the page fold equals its starting value plus the number of
items with fewer than two viewers. -/
theorem pageStep_small_count (last : List Nat) (items : List StreamItem) :
    ∀ (cur : List Nat) (small : Int) (news : List Nat), 0 ≤ small →
      small + ((items.countP fun it => it.viewer_count < 2 : Nat) : Int) ≤ 127 →
      (items.foldl (pageStep last) (cur, small, news)).2.1
        = small + ((items.countP fun it => it.viewer_count < 2 : Nat) : Int) := by
  induction items with
  | nil => intro cur small news _ _; simp
  | cons it rest ih =>
    intro cur small news h0 hcap
    by_cases hv : it.viewer_count < 2
    · have hc : ((it :: rest).countP fun i => i.viewer_count < 2 : Nat)
          = (rest.countP fun i => i.viewer_count < 2 : Nat) + 1 := by
        simp [List.countP_cons, hv]
      rw [hc] at hcap ⊢
      have hwrap : wrap8 (small + 1) = small + 1 := by
        unfold wrap8
        push_cast at hcap
        omega
      rw [List.foldl_cons]
      have hstep : pageStep last (cur, small, news) it
          = (insertId cur it.id, small + 1,
             if it.id ∈ last then news
             else if it.convOk then news ++ [it.id] else news) := by
        simp [pageStep, hv, hwrap]
      rw [hstep, ih _ _ _ (by omega) (by push_cast at hcap ⊢; omega)]
      push_cast
      omega
    · have hc : ((it :: rest).countP fun i => i.viewer_count < 2 : Nat)
          = (rest.countP fun i => i.viewer_count < 2 : Nat) := by
        simp [List.countP_cons, hv]
      rw [hc] at hcap ⊢
      rw [List.foldl_cons]
      have hstep : pageStep last (cur, small, news) it
          = (insertId cur it.id, small,
             if it.id ∈ last then news
             else if it.convOk then news ++ [it.id] else news) := by
        simp [pageStep, hv]
      rw [hstep, ih _ _ _ h0 hcap]

/-- C7 (amended): a reconciliation page on which more than 50 — and, the
counter being a wrapping `i8`, at most 127 — of the returned items have
fewer than two viewers ends the pass's pagination after that page, even
when a next-page cursor exists. -/
theorem lowSignal_cutoff_amended (page : Page) (rest : List (Option Page))
    (sh : Bool) (st : QSState)
    (hmore : 50 < (page.data.countP fun it => it.viewer_count < 2 : Nat))
    (hcap : (page.data.countP fun it => it.viewer_count < 2 : Nat) ≤ 127) :
    (qsLoop true sh (.some page :: rest) st).consumed = 1 := by
  have hsmall := pageStep_small_count st.lastLoop page.data st.currentLoop 0 []
    (le_refl 0) (by omega)
  simp only [qsLoop]
  split
  · rename_i hcontra
    exact absurd hcontra.2 (by simp)
  · split
    · rfl
    · rename_i hstop
      rw [not_or, not_or] at hstop
      refine absurd ?_ hstop.2.1
      rw [hsmall]
      omega

/-- Helper: the low-viewer counter with its `i8` wrap, in full generality:
the fold yields the start value plus the below-threshold count, wrapped
into `[-128, 127]`. -/
theorem pageStep_small_count_wrap (last : List Nat) (items : List StreamItem) :
    ∀ (cur : List Nat) (small : Int) (news : List Nat),
      -128 ≤ small → small ≤ 127 →
      (items.foldl (pageStep last) (cur, small, news)).2.1
        = (small + ((items.countP fun it => it.viewer_count < 2 : Nat) : Int)
            + 128) % 256 - 128 := by
  induction items with
  | nil =>
    intro cur small news h1 h2
    simp only [List.foldl_nil, List.countP_nil]
    omega
  | cons it rest ih =>
    intro cur small news h1 h2
    rw [List.foldl_cons]
    by_cases hv : it.viewer_count < 2
    · have hc : ((it :: rest).countP fun i => i.viewer_count < 2 : Nat)
          = (rest.countP fun i => i.viewer_count < 2 : Nat) + 1 := by
        simp [List.countP_cons, hv]
      have hstep : pageStep last (cur, small, news) it
          = (insertId cur it.id, wrap8 (small + 1),
             if it.id ∈ last then news
             else if it.convOk then news ++ [it.id] else news) := by
        simp [pageStep, hv]
      rw [hc, hstep, ih _ _ _ (by unfold wrap8; omega) (by unfold wrap8; omega)]
      unfold wrap8
      push_cast
      omega
    · have hc : ((it :: rest).countP fun i => i.viewer_count < 2 : Nat)
          = (rest.countP fun i => i.viewer_count < 2 : Nat) := by
        simp [List.countP_cons, hv]
      have hstep : pageStep last (cur, small, news) it
          = (insertId cur it.id, small,
             if it.id ∈ last then news
             else if it.convOk then news ++ [it.id] else news) := by
        simp [pageStep, hv]
      rw [hc, hstep, ih _ _ _ h1 h2]

/-- Helper: when every item of a page was already seen in the previous pass,
the fold forwards no new stream. -/
theorem pageStep_news_of_seen (last : List Nat) (items : List StreamItem)
    (hmem : ∀ it ∈ items, it.id ∈ last) :
    ∀ (cur : List Nat) (small : Int) (news : List Nat),
      (items.foldl (pageStep last) (cur, small, news)).2.2 = news := by
  induction items with
  | nil => intro cur small news; rfl
  | cons it rest ih =>
    intro cur small news
    rw [List.foldl_cons]
    have hstep : pageStep last (cur, small, news) it
        = (insertId cur it.id,
           if it.viewer_count < 2 then wrap8 (small + 1) else small, news) := by
      simp [pageStep, hmem it (List.mem_cons_self _ _)]
    rw [hstep, ih (fun i hi => hmem i (List.mem_cons_of_mem _ hi))]

/-- Helper: counting over a replicated list. -/
theorem countP_replicate (p : StreamItem → Bool) (a : StreamItem) (n : Nat) :
    (List.replicate n a).countP p = if p a then n else 0 := by
  induction n with
  | zero => simp
  | succ n ih =>
    rw [List.replicate_succ, List.countP_cons, ih]
    by_cases hp : p a <;> simp [hp]

/-- C7 counterexample: a single page of 128 below-threshold items — more than
50, as the claim's premise requires — does not stop pagination, because the
`i8` counter wraps to `-128`; the pass consumes the next page as well
despite the low-signal cutoff. -/
theorem lowSignal_cutoff_cex :
    50 < ((List.replicate 128 lowItem).countP
      fun it => it.viewer_count < 2 : Nat) ∧
    (qsLoop true false [some ⟨List.replicate 128 lowItem, some 0⟩,
      some endPage] ⟨[1], []⟩).consumed = 2 := by
  have hcount : ((List.replicate 128 lowItem).countP
      fun it => it.viewer_count < 2 : Nat) = 128 := by
    rw [countP_replicate]
    rfl
  refine ⟨by omega, ?_⟩
  have hsmall := pageStep_small_count_wrap [1] (List.replicate 128 lowItem)
    [] 0 [] (by omega) (by omega)
  rw [hcount] at hsmall
  have hnews := pageStep_news_of_seen [1] (List.replicate 128 lowItem)
    (fun it hit => by
      rw [List.eq_of_mem_replicate hit]
      exact List.mem_cons_self _ _)
    [] 0 []
  rw [qsLoop]
  dsimp only
  split
  · rename_i hcontra
    exact absurd (hnews ▸ hcontra.1) (by simp)
  · split
    · rename_i hstop
      rcases hstop with hpag | hsm | hsh
      · exact absurd hpag (by simp)
      · rw [hsmall] at hsm
        omega
      · exact absurd hsh (by simp)
    · rfl

/-- C7 witness: a 120-item page with exactly 51 below-threshold items and a
next-page cursor stops pagination after itself. -/
theorem lowSignal_cutoff_witness :
    (qsLoop true false [some witPage, some endPage] ⟨[1], []⟩).consumed = 1 := by
  have hc : (witPage.data.countP fun it => it.viewer_count < 2 : Nat) = 51 := by
    simp only [witPage]
    rw [List.countP_append, countP_replicate, countP_replicate]
    rfl
  exact lowSignal_cutoff_amended witPage [some endPage] false ⟨[1], []⟩
    (by rw [hc]; omega) (by rw [hc]; omega)

/-- Helper: a projection of the tag-loop state that no tag of the list
writes is unchanged by the fold. -/
theorem foldl_tagStep_proj {α : Type} (f : TagState → α)
    (P : Tag × String → Prop)
    (hstep : ∀ st tv, P tv → f (tagStep st tv) = f st) :
    ∀ (l : List (Tag × String)) (st : TagState), (∀ tv ∈ l, P tv) →
      f (l.foldl tagStep st) = f st := by
  intro l
  induction l with
  | nil => intro st _; rfl
  | cons tv rest ih =>
    intro st h
    rw [List.foldl_cons, ih _ fun x hx => h x (List.mem_cons_of_mem _ hx),
      hstep st tv (h tv (List.mem_cons_self _ _))]

/-- Helper: only the login tag writes the user-login local. -/
theorem tagStep_userLogin (st : TagState) (tv : Tag × String)
    (h : tv.1 ≠ Tag.login) : (tagStep st tv).userLogin = st.userLogin := by
  rcases tv with ⟨t, v⟩
  cases t <;>
    first
      | exact absurd rfl h
      | rfl
      | (simp only [tagStep, MessageFlags.fromTag]; split <;> rfl)

/-- Helper: only the display-name tag writes the display-name local. -/
theorem tagStep_displayName (st : TagState) (tv : Tag × String)
    (h : tv.1 ≠ Tag.displayName) :
    (tagStep st tv).displayName = st.displayName := by
  rcases tv with ⟨t, v⟩
  cases t <;>
    first
      | exact absurd rfl h
      | rfl
      | (simp only [tagStep, MessageFlags.fromTag]; split <;> rfl)

/-- Helper: only the client-nonce tag writes the client-nonce local. -/
theorem tagStep_clientNonce (st : TagState) (tv : Tag × String)
    (h : tv.1 ≠ Tag.clientNonce) :
    (tagStep st tv).clientNonce = st.clientNonce := by
  rcases tv with ⟨t, v⟩
  cases t <;>
    first
      | exact absurd rfl h
      | rfl
      | (simp only [tagStep, MessageFlags.fromTag]; split <;> rfl)

/-- Helper: only the user-type tag writes the user-type local. -/
theorem tagStep_userType (st : TagState) (tv : Tag × String)
    (h : tv.1 ≠ Tag.userType) : (tagStep st tv).userType = st.userType := by
  rcases tv with ⟨t, v⟩
  cases t <;>
    first
      | exact absurd rfl h
      | rfl
      | (simp only [tagStep, MessageFlags.fromTag]; split <;> rfl)

/-- Helper: only the badges tag writes the badges local. -/
theorem tagStep_badges (st : TagState) (tv : Tag × String)
    (h : tv.1 ≠ Tag.badges) : (tagStep st tv).badges = st.badges := by
  rcases tv with ⟨t, v⟩
  cases t <;>
    first
      | exact absurd rfl h
      | rfl
      | (simp only [tagStep, MessageFlags.fromTag]; split <;> rfl)

/-- Helper: only the badge-info tag writes the badge-info local. -/
theorem tagStep_badgeInfo (st : TagState) (tv : Tag × String)
    (h : tv.1 ≠ Tag.badgeInfo) : (tagStep st tv).badgeInfo = st.badgeInfo := by
  rcases tv with ⟨t, v⟩
  cases t <;>
    first
      | exact absurd rfl h
      | rfl
      | (simp only [tagStep, MessageFlags.fromTag]; split <;> rfl)

/-- Helper: only the emotes tag writes the emotes local. -/
theorem tagStep_emotes (st : TagState) (tv : Tag × String)
    (h : tv.1 ≠ Tag.emotes) : (tagStep st tv).emotes = st.emotes := by
  rcases tv with ⟨t, v⟩
  cases t <;>
    first
      | exact absurd rfl h
      | rfl
      | (simp only [tagStep, MessageFlags.fromTag]; split <;> rfl)

/-- Helper: only the flags tag writes the automod-flags local. -/
theorem tagStep_automodFlags (st : TagState) (tv : Tag × String)
    (h : tv.1 ≠ Tag.flags) :
    (tagStep st tv).automodFlags = st.automodFlags := by
  rcases tv with ⟨t, v⟩
  cases t <;>
    first
      | exact absurd rfl h
      | rfl
      | (simp only [tagStep, MessageFlags.fromTag]; split <;> rfl)

/-- Helper: only the color tag writes the color local. -/
theorem tagStep_color (st : TagState) (tv : Tag × String)
    (h : tv.1 ≠ Tag.color) : (tagStep st tv).color = st.color := by
  rcases tv with ⟨t, v⟩
  cases t <;>
    first
      | exact absurd rfl h
      | rfl
      | (simp only [tagStep, MessageFlags.fromTag]; split <;> rfl)

/-- Helper: only the id tag writes the id local. -/
theorem tagStep_id (st : TagState) (tv : Tag × String)
    (h : tv.1 ≠ Tag.id) : (tagStep st tv).id = st.id := by
  rcases tv with ⟨t, v⟩
  cases t <;>
    first
      | exact absurd rfl h
      | rfl
      | (simp only [tagStep, MessageFlags.fromTag]; split <;> rfl)

/-- Helper: a state projection written only by key `t0`, and to a value not
depending on the prior state, ends up at that value whenever `(t0, v)`
occurs in a list with pairwise-distinct keys. -/
theorem fold_single_writer {α : Type} (f : TagState → α) (t0 : Tag)
    (v : String) (c : α)
    (hstep : ∀ st tv, tv.1 ≠ t0 → f (tagStep st tv) = f st)
    (hwrite : ∀ st, f (tagStep st (t0, v)) = c)
    (l : List (Tag × String)) (st : TagState)
    (hmem : (t0, v) ∈ l) (hnd : (l.map Prod.fst).Nodup) :
    f (l.foldl tagStep st) = c := by
  obtain ⟨l1, l2, rfl⟩ := List.append_of_mem hmem
  have h2 : ∀ tv ∈ l2, tv.1 ≠ t0 := by
    intro tv htv heq
    rw [List.map_append, List.map_cons] at hnd
    have hn2 := (List.nodup_append.mp hnd).2.1
    rw [List.nodup_cons] at hn2
    exact hn2.1 (List.mem_map.mpr ⟨tv, htv, heq⟩)
  rw [List.foldl_append, List.foldl_cons,
    foldl_tagStep_proj f (fun tv => tv.1 ≠ t0) hstep l2 _ h2, hwrite]

/-- Helper: in a tag list with pairwise-distinct keys, a key determines its
value. -/
theorem key_unique {l : List (Tag × String)}
    (hnd : (l.map Prod.fst).Nodup) {t : Tag} {a b : String}
    (ha : (t, a) ∈ l) (hb : (t, b) ∈ l) : a = b := by
  induction l with
  | nil => cases ha
  | cons hd tl ih =>
    rw [List.map_cons, List.nodup_cons] at hnd
    rcases List.mem_cons.mp ha with rfl | ha' <;>
      rcases List.mem_cons.mp hb with hb' | hb'
    · exact (Prod.ext_iff.mp hb').2.symm
    · exact absurd (List.mem_map_of_mem Prod.fst hb') hnd.1
    · rw [← hb'] at hnd
      exact absurd (List.mem_map_of_mem Prod.fst ha') hnd.1
    · exact ih hnd.2 ha' hb'

/-- Helper: a tag mapping to a flag bit is that bit's wire tag. -/
theorem fromTag_eq_tag (t : Tag) (b : FlagBit)
    (h : MessageFlags.fromTag t = some b) : t = b.tag := by
  cases t <;> simp [MessageFlags.fromTag] at h <;> rw [← h] <;> rfl

/-- Helper: bit membership after inserting a bit. -/
theorem contains_insert (f : MessageFlags) (b b' : FlagBit) :
    (f.insert b').contains b = true ↔ b = b' ∨ f.contains b = true := by
  cases b <;> cases b' <;>
    simp [MessageFlags.insert, MessageFlags.contains]

/-- Helper: inserting a different bit does not change membership. -/
theorem contains_insert_ne (f : MessageFlags) (b b' : FlagBit)
    (h : b ≠ b') : (f.insert b').contains b = f.contains b := by
  cases b <;> cases b' <;>
    first
      | exact absurd rfl h
      | simp [MessageFlags.insert, MessageFlags.contains]

/-- Helper: the empty bitset has no bit set. -/
theorem contains_empty (b : FlagBit) :
    MessageFlags.empty.contains b = false := by
  cases b <;> rfl

/-- Helper: the tag loop never clears a flag bit. -/
theorem tagStep_contains_mono (b : FlagBit) (st : TagState)
    (tv : Tag × String) (h : st.flags.contains b = true) :
    (tagStep st tv).flags.contains b = true := by
  rcases tv with ⟨t, v⟩
  cases t <;>
    first
      | exact h
      | (rcases hu : uuidParse v with _ | u <;> simp only [tagStep, hu] <;>
          exact h)
      | (simp only [tagStep, MessageFlags.fromTag]
         split
         · exact (contains_insert _ _ _).mpr (Or.inr h)
         · exact h)

/-- Helper: fold version of `tagStep_contains_mono`. -/
theorem fold_contains_mono (b : FlagBit) (l : List (Tag × String)) :
    ∀ st : TagState, st.flags.contains b = true →
      ((l.foldl tagStep st).flags.contains b) = true := by
  induction l with
  | nil => intro st h; exact h
  | cons tv rest ih =>
    intro st h
    rw [List.foldl_cons]
    exact ih _ (tagStep_contains_mono b st tv h)

/-- Helper: a flag tag explicitly valued "1" sets its bit. -/
theorem fold_flag_set (b : FlagBit) (l : List (Tag × String)) (st : TagState)
    (hmem : (b.tag, "1") ∈ l) :
    ((l.foldl tagStep st).flags.contains b) = true := by
  obtain ⟨l1, l2, rfl⟩ := List.append_of_mem hmem
  rw [List.foldl_append, List.foldl_cons]
  apply fold_contains_mono
  cases b <;>
    (simp only [tagStep, FlagBit.tag, MessageFlags.fromTag]
     rw [if_pos trivial]
     dsimp only
     exact (contains_insert _ _ _).mpr (Or.inl rfl))

/-- Helper: anything other than the bit's own tag valued "1" leaves the bit
untouched. -/
theorem tagStep_contains_other (b : FlagBit) (st : TagState)
    (tv : Tag × String) (h : tv ≠ (b.tag, "1")) :
    (tagStep st tv).flags.contains b = st.flags.contains b := by
  rcases tv with ⟨t, v⟩
  cases t <;>
    first
      | rfl
      | (rcases hu : uuidParse v with _ | u <;> simp only [tagStep, hu] <;>
          rfl)
      | (simp only [tagStep, MessageFlags.fromTag]
         split
         · rename_i hv
           dsimp only
           refine contains_insert_ne _ _ _ ?_
           rintro rfl
           exact h (by rw [hv]; rfl)
         · rfl)

/-- Helper: a flag bit whose tag never carries "1" stays clear. -/
theorem fold_flag_unset (b : FlagBit) (l : List (Tag × String)) :
    ∀ st : TagState, st.flags.contains b = false →
      (∀ v, (b.tag, v) ∈ l → v ≠ "1") →
      ((l.foldl tagStep st).flags.contains b) = false := by
  induction l with
  | nil => intro st h _; exact h
  | cons tv rest ih =>
    intro st h hno
    rw [List.foldl_cons]
    refine ih _ ?_ fun v hv => hno v (List.mem_cons_of_mem _ hv)
    rw [tagStep_contains_other b st tv ?_, h]
    intro heq
    exact hno "1" (heq ▸ List.mem_cons_self _ _) rfl

/-- Helper: the tag loop never removes an extra-tag entry. -/
theorem tagStep_extra_mono (st : TagState) (tv : Tag × String) :
    ∀ kv ∈ st.extraTags, kv ∈ (tagStep st tv).extraTags := by
  rcases tv with ⟨t, v⟩
  intro kv hkv
  cases t <;>
    first
      | exact hkv
      | (rcases hu : uuidParse v with _ | u <;> simp only [tagStep, hu]
         · exact List.mem_append_left _ hkv
         · exact hkv)
      | (simp only [tagStep, MessageFlags.fromTag]
         first
           | exact List.mem_append_left _ hkv
           | (split <;> exact hkv))

/-- Helper: fold version of `tagStep_extra_mono`. -/
theorem fold_extra_mono (l : List (Tag × String)) :
    ∀ (st : TagState), ∀ kv ∈ st.extraTags,
      kv ∈ (l.foldl tagStep st).extraTags := by
  induction l with
  | nil => intro st kv hkv; exact hkv
  | cons tv rest ih =>
    intro st kv hkv
    rw [List.foldl_cons]
    exact ih _ kv (tagStep_extra_mono st tv kv hkv)

/-- Helper: an id tag with an unparsable value is preserved verbatim as an
extra tag. -/
theorem fold_extra_push_id (l : List (Tag × String)) (st : TagState)
    (v : String) (hmem : (Tag.id, v) ∈ l) (hparse : uuidParse v = none) :
    ("id", v) ∈ (l.foldl tagStep st).extraTags := by
  obtain ⟨l1, l2, rfl⟩ := List.append_of_mem hmem
  rw [List.foldl_append, List.foldl_cons]
  apply fold_extra_mono
  simp only [tagStep, hparse]
  exact List.mem_append_right _ (List.mem_singleton.mpr rfl)

/-- Helper: a tag outside both the typed table and the flag set is preserved
verbatim as an extra tag. -/
theorem fold_extra_push_other (l : List (Tag × String)) (st : TagState)
    (t : Tag) (v : String) (hmem : (t, v) ∈ l)
    (hflag : MessageFlags.fromTag t = none) (hhandled : t ∉ handledTags) :
    (t.toStr, v) ∈ (l.foldl tagStep st).extraTags := by
  obtain ⟨l1, l2, rfl⟩ := List.append_of_mem hmem
  rw [List.foldl_append, List.foldl_cons]
  apply fold_extra_mono
  cases t <;>
    first
      | (exact absurd hflag (by decide))
      | (exact absurd (by decide) hhandled)
      | (simp only [tagStep, MessageFlags.fromTag]
         exact List.mem_append_right _ (List.mem_singleton.mpr rfl))

/-- Helper: single step of the extra-tag key invariant. -/
theorem tagStep_extraOk (st : TagState) (tv : Tag × String) (hwf : tv.1.wf)
    (hinv : ∀ kv ∈ st.extraTags, extraOk kv) :
    ∀ kv ∈ (tagStep st tv).extraTags, extraOk kv := by
  rcases tv with ⟨t, v⟩
  intro kv hkv
  cases t
  case id =>
    rcases hu : uuidParse v with _ | u
    · simp only [tagStep, hu] at hkv
      rcases List.mem_append.mp hkv with hkv | hkv
      · exact hinv kv hkv
      · rw [List.mem_singleton] at hkv
        subst hkv
        exact ⟨(by decide : MessageFlags.fromTag (Tag.parse "id") = none),
          (by decide : Tag.parse "id" ≠ Tag.sentTs), fun _ => ⟨rfl, hu⟩⟩
    · simp only [tagStep, hu] at hkv
      exact hinv kv hkv
  case banDuration =>
    simp only [tagStep, MessageFlags.fromTag] at hkv
    rcases List.mem_append.mp hkv with hkv | hkv
    · exact hinv kv hkv
    · rw [List.mem_singleton] at hkv
      subst hkv
      exact ⟨(by decide : MessageFlags.fromTag (Tag.parse "ban-duration")
          = none),
        (by decide : Tag.parse "ban-duration" ≠ Tag.sentTs),
        fun hrec => absurd hrec
          (by decide : ¬("ban-duration" ∈ recognizedKeys))⟩
  case systemMsg =>
    simp only [tagStep, MessageFlags.fromTag] at hkv
    rcases List.mem_append.mp hkv with hkv | hkv
    · exact hinv kv hkv
    · rw [List.mem_singleton] at hkv
      subst hkv
      exact ⟨(by decide : MessageFlags.fromTag (Tag.parse "system-msg")
          = none),
        (by decide : Tag.parse "system-msg" ≠ Tag.sentTs),
        fun hrec => absurd hrec
          (by decide : ¬("system-msg" ∈ recognizedKeys))⟩
  case other s =>
    simp only [tagStep, MessageFlags.fromTag] at hkv
    rcases List.mem_append.mp hkv with hkv | hkv
    · exact hinv kv hkv
    · rw [List.mem_singleton] at hkv
      subst hkv
      have hws : Tag.parse s = Tag.other s := hwf
      refine ⟨?_, ?_, fun hrec => ?_⟩
      · show MessageFlags.fromTag (Tag.parse s) = none
        rw [hws]
        rfl
      · show Tag.parse s ≠ Tag.sentTs
        rw [hws]
        nofun
      · have hrec' : s ∈ recognizedKeys := hrec
        simp only [recognizedKeys, List.mem_cons, List.not_mem_nil,
          or_false] at hrec'
        rcases hrec' with rfl|rfl|rfl|rfl|rfl|rfl|rfl|rfl|rfl|rfl|rfl|rfl|
          rfl|rfl|rfl|rfl|rfl|rfl|rfl|rfl <;>
          exact absurd hws (by decide)
  all_goals
    first
      | exact hinv kv hkv
      | (simp only [tagStep, MessageFlags.fromTag] at hkv
         split at hkv <;> exact hinv kv hkv)

/-- Helper: fold version of the extra-tag key invariant. -/
theorem fold_extraOk (l : List (Tag × String)) :
    ∀ st : TagState, (∀ tv ∈ l, tv.1.wf) →
      (∀ kv ∈ st.extraTags, extraOk kv) →
      ∀ kv ∈ (l.foldl tagStep st).extraTags, extraOk kv := by
  induction l with
  | nil => intro st _ hinv; exact hinv
  | cons tv rest ih =>
    intro st hwf hinv
    rw [List.foldl_cons]
    exact ih _ (fun x hx => hwf x (List.mem_cons_of_mem _ hx))
      (tagStep_extraOk st tv (hwf tv (List.mem_cons_self _ _)) hinv)

/-- Helper: comma-joining the comma-split of a string gives the string back,
so the badges round-trip exactly. -/
theorem joinComma_splitComma (s : String) : joinComma (splitComma s) = s := by
  unfold joinComma splitComma
  rw [List.map_map]
  have hid : (String.toList ∘ String.mk) = id := funext fun l => rfl
  rw [hid, List.map_id]
  exact congrArg String.mk (@List.intercalate_splitOn Char s.toList ',' _)

/-- Helper: shape of a successfully decoded row — every field comes either
from the envelope, from the text synthesis, or from the tag loop run on the
initial state. -/
theorem fromUnstructured_ok_fields (msg : UnstructuredMessage)
    (irc : IrcMessage) (row : StructuredMessage)
    (hok : fromUnstructured msg irc = .ok row) :
    ∃ (mt : MessageType) (u0 text : String),
      row = { channel_id := msg.channel_id
              channel_login := trimHashes (irc.channel.getD "")
              timestamp := msg.timestamp
              id := (irc.tags.foldl tagStep (TagState.init u0)).id
              message_type := mt
              user_id := msg.user_id
              user_login := (irc.tags.foldl tagStep (TagState.init u0)).userLogin
              display_name :=
                (irc.tags.foldl tagStep (TagState.init u0)).displayName
              color := (irc.tags.foldl tagStep (TagState.init u0)).color
              user_type := (irc.tags.foldl tagStep (TagState.init u0)).userType
              badges := (irc.tags.foldl tagStep (TagState.init u0)).badges
              badge_info := (irc.tags.foldl tagStep (TagState.init u0)).badgeInfo
              client_nonce :=
                (irc.tags.foldl tagStep (TagState.init u0)).clientNonce
              emotes := (irc.tags.foldl tagStep (TagState.init u0)).emotes
              automod_flags :=
                (irc.tags.foldl tagStep (TagState.init u0)).automodFlags
              text := text
              message_flags := (irc.tags.foldl tagStep (TagState.init u0)).flags
              extra_tags :=
                (irc.tags.foldl tagStep (TagState.init u0)).extraTags } := by
  unfold fromUnstructured at hok
  split at hok
  · cases hok
  · dsimp only at hok
    repeat split at hok
    all_goals
      first
        | (injection hok with hrow
           exact ⟨_, _, _, hrow.symm⟩)
        | cases hok

/-- Helper: entries of `as_tags` are exactly the set bits, valued "1". -/
theorem asTags_mem (f : MessageFlags) (p : Tag × String)
    (h : p ∈ f.asTags) :
    ∃ b, MessageFlags.fromTag p.1 = some b ∧ f.contains b = true ∧
      p.2 = "1" := by
  unfold MessageFlags.asTags at h
  rw [List.mem_filterMap] at h
  obtain ⟨a, _, hga⟩ := h
  rcases hfa : MessageFlags.fromTag a with _ | b
  · rw [hfa] at hga
    cases hga
  · rw [hfa] at hga
    dsimp only at hga
    by_cases hcont : f.contains b = true
    · rw [if_pos hcont] at hga
      injection hga with hga
      subst hga
      exact ⟨b, hfa, hcont, rfl⟩
    · rw [if_neg hcont] at hga
      cases hga

/-- Helper: a set bit is emitted by `as_tags`. -/
theorem asTags_mem_of_contains (f : MessageFlags) (b : FlagBit)
    (h : f.contains b = true) : (b.tag, "1") ∈ f.asTags := by
  cases b <;>
    simp [MessageFlags.asTags, MessageFlags.tagList, MessageFlags.fromTag,
      FlagBit.tag, h]

/-- Helper: a tag that is not the timestamp tag, has its flag bit (if any)
clear, is none of the twelve typed-field emissions, and is not the re-parse
of any stored extra key, never appears in `all_tags`. -/
theorem allTags_not_mem_aux (row : StructuredMessage) (t : Tag) (v' : String)
    (h1 : t ≠ Tag.tmiSentTs)
    (h2 : ∀ b, MessageFlags.fromTag t = some b →
      row.message_flags.contains b = false)
    (h3 : t ∉ ([.id, .roomId, .userId, .login, .clientNonce, .displayName,
      .badges, .badgeInfo, .color, .flags, .userType, .emotes] : List Tag))
    (h4 : ∀ kv ∈ row.extra_tags, Tag.parse kv.1 ≠ t) :
    (t, v') ∉ allTags row := by
  intro hmem
  unfold allTags at hmem
  simp only [List.mem_append] at hmem
  rcases hmem with
    ((((((((((ha | hb) | hc) | hd) | he) | hf) | hg) | hh) | hi) | hj) | hk)
    | hl
  · rw [List.mem_singleton] at ha
    exact h1 (Prod.ext_iff.mp ha).1
  · obtain ⟨b, hfb, hcont, _⟩ := asTags_mem _ _ hb
    rw [h2 b hfb] at hcont
    cases hcont
  · split at hc
    · rw [List.mem_singleton] at hc
      have ht : t = Tag.id := (Prod.ext_iff.mp hc).1
      subst ht
      exact h3 (by decide)
    · cases hc
  · split at hd
    · rw [List.mem_singleton] at hd
      have ht : t = Tag.roomId := (Prod.ext_iff.mp hd).1
      subst ht
      exact h3 (by decide)
    · cases hd
  · split at he
    · rw [List.mem_singleton] at he
      have ht : t = Tag.userId := (Prod.ext_iff.mp he).1
      subst ht
      exact h3 (by decide)
    · cases he
  · split at hf
    · rw [List.mem_singleton] at hf
      have ht : t = Tag.login := (Prod.ext_iff.mp hf).1
      subst ht
      exact h3 (by decide)
    · cases hf
  · split at hg
    · rw [List.mem_singleton] at hg
      have ht : t = Tag.clientNonce := (Prod.ext_iff.mp hg).1
      subst ht
      exact h3 (by decide)
    · cases hg
  · split at hh
    · rw [List.mem_singleton] at hh
      have ht : t = Tag.displayName := (Prod.ext_iff.mp hh).1
      subst ht
      exact h3 (by decide)
    · cases hh
  · rcases List.mem_cons.mp hi with hi | hi
    · have ht : t = Tag.badges := (Prod.ext_iff.mp hi).1
      subst ht
      exact h3 (by decide)
    · rw [List.mem_singleton] at hi
      have ht : t = Tag.badgeInfo := (Prod.ext_iff.mp hi).1
      subst ht
      exact h3 (by decide)
  · split at hj
    · rw [List.mem_singleton] at hj
      have ht : t = Tag.color := (Prod.ext_iff.mp hj).1
      subst ht
      exact h3 (by decide)
    · cases hj
  · rcases List.mem_cons.mp hk with hk | hk
    · have ht : t = Tag.flags := (Prod.ext_iff.mp hk).1
      subst ht
      exact h3 (by decide)
    rcases List.mem_cons.mp hk with hk | hk
    · have ht : t = Tag.userType := (Prod.ext_iff.mp hk).1
      subst ht
      exact h3 (by decide)
    · rw [List.mem_singleton] at hk
      have ht : t = Tag.emotes := (Prod.ext_iff.mp hk).1
      subst ht
      exact h3 (by decide)
  · rw [List.mem_map] at hl
    obtain ⟨kv, hkv, heq⟩ := hl
    exact h4 kv hkv (Prod.ext_iff.mp heq).1

/-- Helper: the timestamp tag is always emitted. -/
theorem allTags_mem_tmi (row : StructuredMessage) :
    (Tag.tmiSentTs, toString row.timestamp) ∈ allTags row := by
  unfold allTags
  simp

/-- Helper: a set flag bit is emitted as its tag valued "1". -/
theorem allTags_mem_flag (row : StructuredMessage) (b : FlagBit)
    (h : row.message_flags.contains b = true) :
    (b.tag, "1") ∈ allTags row := by
  unfold allTags
  refine List.mem_append_left _ (List.mem_append_left _
    (List.mem_append_left _ (List.mem_append_left _ (List.mem_append_left _
    (List.mem_append_left _ (List.mem_append_left _ (List.mem_append_left _
    (List.mem_append_left _ (List.mem_append_left _ ?_)))))))))
  exact List.mem_append_right _ (asTags_mem_of_contains _ b h)

/-- Helper: a non-nil id is emitted hyphenated. -/
theorem allTags_mem_id (row : StructuredMessage) (h : row.id ≠ 0) :
    (Tag.id, uuidHyphenated row.id) ∈ allTags row := by
  unfold allTags
  simp [h]

/-- Helper: a nonempty channel id is emitted as the room-id tag. -/
theorem allTags_mem_roomId (row : StructuredMessage)
    (h : row.channel_id ≠ "") : (Tag.roomId, row.channel_id) ∈ allTags row := by
  unfold allTags
  simp [h]

/-- Helper: a nonempty user id is emitted as the user-id tag. -/
theorem allTags_mem_userId (row : StructuredMessage)
    (h : row.user_id ≠ "") : (Tag.userId, row.user_id) ∈ allTags row := by
  unfold allTags
  simp [h]

/-- Helper: a nonempty user login is emitted as the login tag. -/
theorem allTags_mem_login (row : StructuredMessage)
    (h : row.user_login ≠ "") : (Tag.login, row.user_login) ∈ allTags row := by
  unfold allTags
  simp [h]

/-- Helper: a nonempty client nonce is emitted. -/
theorem allTags_mem_clientNonce (row : StructuredMessage)
    (h : row.client_nonce ≠ "") :
    (Tag.clientNonce, row.client_nonce) ∈ allTags row := by
  unfold allTags
  simp [h]

/-- Helper: a nonempty display name is emitted. -/
theorem allTags_mem_displayName (row : StructuredMessage)
    (h : row.display_name ≠ "") :
    (Tag.displayName, row.display_name) ∈ allTags row := by
  unfold allTags
  simp [h]

/-- Helper: the badges tag is always emitted, comma-joined. -/
theorem allTags_mem_badges (row : StructuredMessage) :
    (Tag.badges, joinComma row.badges) ∈ allTags row := by
  unfold allTags
  simp

/-- Helper: the badge-info tag is always emitted. -/
theorem allTags_mem_badgeInfo (row : StructuredMessage) :
    (Tag.badgeInfo, row.badge_info) ∈ allTags row := by
  unfold allTags
  simp

/-- Helper: a present color is emitted as `#` plus padded uppercase hex. -/
theorem allTags_mem_color (row : StructuredMessage) (c : Nat)
    (h : row.color = some c) :
    (Tag.color, "#" ++ hexUpperPad4 c) ∈ allTags row := by
  unfold allTags
  simp [h]

/-- Helper: the automod-flags tag is always emitted. -/
theorem allTags_mem_automod (row : StructuredMessage) :
    (Tag.flags, row.automod_flags) ∈ allTags row := by
  unfold allTags
  simp

/-- Helper: the user-type tag is always emitted. -/
theorem allTags_mem_userType (row : StructuredMessage) :
    (Tag.userType, row.user_type) ∈ allTags row := by
  unfold allTags
  simp

/-- Helper: the emotes tag is always emitted. -/
theorem allTags_mem_emotes (row : StructuredMessage) :
    (Tag.emotes, row.emotes) ∈ allTags row := by
  unfold allTags
  simp

/-- Helper: every stored extra tag is emitted, its key re-parsed. -/
theorem allTags_mem_extra (row : StructuredMessage) (kv : String × String)
    (h : kv ∈ row.extra_tags) :
    (Tag.parse kv.1, kv.2) ∈ allTags row := by
  unfold allTags
  exact List.mem_append_right _ (List.mem_map_of_mem _ h)

/-- Helper: a bit's wire tag maps back to the bit. -/
theorem fromTag_tag (b : FlagBit) : MessageFlags.fromTag b.tag = some b := by
  cases b <;> rfl

/-- Helper: the full reproduction statement for one flag tag. -/
theorem flag_case_repro (irc : IrcMessage) (u0 : String) (b : FlagBit)
    (v : String)
    (hwf : ∀ tv ∈ irc.tags, tv.1.wf)
    (hnd : (irc.tags.map Prod.fst).Nodup)
    (hmem : (b.tag, v) ∈ irc.tags)
    (row : StructuredMessage)
    (hflags : row.message_flags
      = (irc.tags.foldl tagStep (TagState.init u0)).flags)
    (hextra : row.extra_tags
      = (irc.tags.foldl tagStep (TagState.init u0)).extraTags)
    (h1 : b.tag ≠ Tag.tmiSentTs)
    (h3 : b.tag ∉ ([.id, .roomId, .userId, .login, .clientNonce,
      .displayName, .badges, .badgeInfo, .color, .flags, .userType,
      .emotes] : List Tag)) :
    (v = "1" → (b.tag, "1") ∈ allTags row) ∧
    (v ≠ "1" → ∀ v', (b.tag, v') ∉ allTags row) := by
  constructor
  · intro hv1
    subst hv1
    refine allTags_mem_flag row b ?_
    rw [hflags]
    exact fold_flag_set b irc.tags (TagState.init u0) hmem
  · intro hne v'
    refine allTags_not_mem_aux row b.tag v' h1 ?_ h3 ?_
    · intro b' hb'
      rw [fromTag_tag] at hb'
      injection hb' with hb'
      subst hb'
      rw [hflags]
      refine fold_flag_unset b irc.tags _ (contains_empty b) ?_
      intro v'' hv'' heq
      subst heq
      exact hne (key_unique hnd hmem hv'')
    · intro kv hkv heq
      have h5 := (fold_extraOk irc.tags (TagState.init u0) hwf
        (by intro kv h; cases h) kv (by rw [← hextra]; exact hkv)).1
      rw [heq, fromTag_tag] at h5
      cases h5

/-- C1 (amended): for every unstructured message that decodes to a row,
`all_tags` of the row reproduces every input tag with nonzero / non-default
value, as qualified by `ReproSpec`: flag tags are reproduced exactly when
valued "1" (explicit "0" — or any non-"1" value — is dropped); color and id
are reproduced when their value is in the canonical form the encoder
re-emits, an unparsable id verbatim; room-id, user-id and tmi-sent-ts are
reproduced when they agree with the envelope's channel id, user id and
timestamp; sent-ts is never reproduced.  Tag keys are assumed pairwise
distinct and well-formed, as the external parser produces them. -/
theorem roundTrip_amended (msg : UnstructuredMessage) (irc : IrcMessage)
    (row : StructuredMessage)
    (hwf : ∀ tv ∈ irc.tags, tv.1.wf)
    (hnd : (irc.tags.map Prod.fst).Nodup)
    (hok : fromUnstructured msg irc = .ok row) :
    ∀ tv ∈ irc.tags, ReproSpec msg row tv.1 tv.2 := by
  obtain ⟨mt, u0, text, hrow⟩ := fromUnstructured_ok_fields msg irc row hok
  have hUL : row.user_login
      = (irc.tags.foldl tagStep (TagState.init u0)).userLogin := by rw [hrow]
  have hDN : row.display_name
      = (irc.tags.foldl tagStep (TagState.init u0)).displayName := by
    rw [hrow]
  have hCN : row.client_nonce
      = (irc.tags.foldl tagStep (TagState.init u0)).clientNonce := by
    rw [hrow]
  have hUT : row.user_type
      = (irc.tags.foldl tagStep (TagState.init u0)).userType := by rw [hrow]
  have hBadges : row.badges
      = (irc.tags.foldl tagStep (TagState.init u0)).badges := by rw [hrow]
  have hBI : row.badge_info
      = (irc.tags.foldl tagStep (TagState.init u0)).badgeInfo := by rw [hrow]
  have hEmotes : row.emotes
      = (irc.tags.foldl tagStep (TagState.init u0)).emotes := by rw [hrow]
  have hAF : row.automod_flags
      = (irc.tags.foldl tagStep (TagState.init u0)).automodFlags := by
    rw [hrow]
  have hColor : row.color
      = (irc.tags.foldl tagStep (TagState.init u0)).color := by rw [hrow]
  have hId : row.id
      = (irc.tags.foldl tagStep (TagState.init u0)).id := by rw [hrow]
  have hFlags : row.message_flags
      = (irc.tags.foldl tagStep (TagState.init u0)).flags := by rw [hrow]
  have hExtra : row.extra_tags
      = (irc.tags.foldl tagStep (TagState.init u0)).extraTags := by rw [hrow]
  have hCid : row.channel_id = msg.channel_id := by rw [hrow]
  have hUid : row.user_id = msg.user_id := by rw [hrow]
  have hTs : row.timestamp = msg.timestamp := by rw [hrow]
  have hExtraOk : ∀ kv ∈ row.extra_tags, extraOk kv := by
    rw [hExtra]
    exact fold_extraOk irc.tags (TagState.init u0) hwf
      (by intro kv h; cases h)
  rintro ⟨t, v⟩ hmem
  cases t
  case id =>
    constructor
    · intro u hu hne hcanon
      have hid : (irc.tags.foldl tagStep (TagState.init u0)).id = u :=
        fold_single_writer (fun s => s.id) Tag.id v u tagStep_id
          (fun st' => by simp [tagStep, hu]) irc.tags _ hmem hnd
      have hm := allTags_mem_id row (by rw [hId, hid]; exact hne)
      rw [hId, hid, ← hcanon] at hm
      exact hm
    · intro hparse
      have hp := fold_extra_push_id irc.tags (TagState.init u0) v hmem hparse
      have hm := allTags_mem_extra row ("id", v) (by rw [hExtra]; exact hp)
      have hpid : Tag.parse "id" = Tag.id := by decide
      rw [hpid] at hm
      exact hm
  case login =>
    intro hne
    have hl : (irc.tags.foldl tagStep (TagState.init u0)).userLogin = v :=
      fold_single_writer (fun s => s.userLogin) Tag.login v v
        tagStep_userLogin (fun _ => rfl) irc.tags _ hmem hnd
    have hm := allTags_mem_login row (by rw [hUL, hl]; exact hne)
    rw [hUL, hl] at hm
    exact hm
  case displayName =>
    intro hne
    have hl : (irc.tags.foldl tagStep (TagState.init u0)).displayName = v :=
      fold_single_writer (fun s => s.displayName) Tag.displayName v v
        tagStep_displayName (fun _ => rfl) irc.tags _ hmem hnd
    have hm := allTags_mem_displayName row (by rw [hDN, hl]; exact hne)
    rw [hDN, hl] at hm
    exact hm
  case clientNonce =>
    intro hne
    have hl : (irc.tags.foldl tagStep (TagState.init u0)).clientNonce = v :=
      fold_single_writer (fun s => s.clientNonce) Tag.clientNonce v v
        tagStep_clientNonce (fun _ => rfl) irc.tags _ hmem hnd
    have hm := allTags_mem_clientNonce row (by rw [hCN, hl]; exact hne)
    rw [hCN, hl] at hm
    exact hm
  case color =>
    intro c hc hcanon
    have hl : (irc.tags.foldl tagStep (TagState.init u0)).color
        = fromStrRadix16 (trimHashes v) :=
      fold_single_writer (fun s => s.color) Tag.color v _
        tagStep_color (fun _ => rfl) irc.tags _ hmem hnd
    have hm := allTags_mem_color row c (by rw [hColor, hl]; exact hc)
    rw [← hcanon] at hm
    exact hm
  case userType =>
    have hl : (irc.tags.foldl tagStep (TagState.init u0)).userType = v :=
      fold_single_writer (fun s => s.userType) Tag.userType v v
        tagStep_userType (fun _ => rfl) irc.tags _ hmem hnd
    have hm := allTags_mem_userType row
    rw [hUT, hl] at hm
    exact hm
  case badges =>
    have hl : (irc.tags.foldl tagStep (TagState.init u0)).badges
        = splitComma v :=
      fold_single_writer (fun s => s.badges) Tag.badges v (splitComma v)
        tagStep_badges (fun _ => rfl) irc.tags _ hmem hnd
    have hm := allTags_mem_badges row
    rw [hBadges, hl, joinComma_splitComma] at hm
    exact hm
  case badgeInfo =>
    have hl : (irc.tags.foldl tagStep (TagState.init u0)).badgeInfo = v :=
      fold_single_writer (fun s => s.badgeInfo) Tag.badgeInfo v v
        tagStep_badgeInfo (fun _ => rfl) irc.tags _ hmem hnd
    have hm := allTags_mem_badgeInfo row
    rw [hBI, hl] at hm
    exact hm
  case emotes =>
    have hl : (irc.tags.foldl tagStep (TagState.init u0)).emotes = v :=
      fold_single_writer (fun s => s.emotes) Tag.emotes v v
        tagStep_emotes (fun _ => rfl) irc.tags _ hmem hnd
    have hm := allTags_mem_emotes row
    rw [hEmotes, hl] at hm
    exact hm
  case flags =>
    have hl : (irc.tags.foldl tagStep (TagState.init u0)).automodFlags = v :=
      fold_single_writer (fun s => s.automodFlags) Tag.flags v v
        tagStep_automodFlags (fun _ => rfl) irc.tags _ hmem hnd
    have hm := allTags_mem_automod row
    rw [hAF, hl] at hm
    exact hm
  case roomId =>
    intro hveq hne
    have hm := allTags_mem_roomId row (by rw [hCid, ← hveq]; exact hne)
    rw [hCid, ← hveq] at hm
    exact hm
  case userId =>
    intro hveq hne
    have hm := allTags_mem_userId row (by rw [hUid, ← hveq]; exact hne)
    rw [hUid, ← hveq] at hm
    exact hm
  case tmiSentTs =>
    intro hveq
    have hm := allTags_mem_tmi row
    rw [hTs, ← hveq] at hm
    exact hm
  case sentTs =>
    intro v'
    refine allTags_not_mem_aux row Tag.sentTs v' (by decide) ?_ (by decide)
      ?_
    · intro b hb
      simp [MessageFlags.fromTag] at hb
    · intro kv hkv heq
      exact (hExtraOk kv hkv).2.1 heq
  case banDuration =>
    have hp := fold_extra_push_other irc.tags (TagState.init u0)
      Tag.banDuration v hmem rfl (by decide)
    have hm := allTags_mem_extra row (Tag.banDuration.toStr, v)
      (by rw [hExtra]; exact hp)
    have hpb : Tag.parse (Tag.banDuration.toStr) = Tag.banDuration := by
      decide
    rw [hpb] at hm
    exact hm
  case systemMsg =>
    have hp := fold_extra_push_other irc.tags (TagState.init u0)
      Tag.systemMsg v hmem rfl (by decide)
    have hm := allTags_mem_extra row (Tag.systemMsg.toStr, v)
      (by rw [hExtra]; exact hp)
    have hpb : Tag.parse (Tag.systemMsg.toStr) = Tag.systemMsg := by decide
    rw [hpb] at hm
    exact hm
  case other s =>
    have hp := fold_extra_push_other irc.tags (TagState.init u0)
      (Tag.other s) v hmem rfl (by simp [handledTags])
    have hm := allTags_mem_extra row ((Tag.other s).toStr, v)
      (by rw [hExtra]; exact hp)
    have hws : Tag.parse ((Tag.other s).toStr) = Tag.other s :=
      hwf (Tag.other s, v) hmem
    rw [hws] at hm
    exact hm
  case subscriber =>
    exact flag_case_repro irc u0 FlagBit.subscriber v hwf hnd hmem row hFlags hExtra
      (by decide) (by decide)
  case vip =>
    exact flag_case_repro irc u0 FlagBit.vip v hwf hnd hmem row hFlags hExtra
      (by decide) (by decide)
  case mod =>
    exact flag_case_repro irc u0 FlagBit.mod v hwf hnd hmem row hFlags hExtra
      (by decide) (by decide)
  case turbo =>
    exact flag_case_repro irc u0 FlagBit.turbo v hwf hnd hmem row hFlags hExtra
      (by decide) (by decide)
  case firstMsg =>
    exact flag_case_repro irc u0 FlagBit.firstMsg v hwf hnd hmem row hFlags hExtra
      (by decide) (by decide)
  case returningChatter =>
    exact flag_case_repro irc u0 FlagBit.returningChatter v hwf hnd hmem row hFlags hExtra
      (by decide) (by decide)
  case emoteOnly =>
    exact flag_case_repro irc u0 FlagBit.emoteOnly v hwf hnd hmem row hFlags hExtra
      (by decide) (by decide)
  case r9k =>
    exact flag_case_repro irc u0 FlagBit.r9k v hwf hnd hmem row hFlags hExtra
      (by decide) (by decide)
  case subsOnly =>
    exact flag_case_repro irc u0 FlagBit.subsOnly v hwf hnd hmem row hFlags hExtra
      (by decide) (by decide)
  case slow =>
    exact flag_case_repro irc u0 FlagBit.slowMode v hwf hnd hmem row hFlags hExtra
      (by decide) (by decide)

/-- C1 counterexample: the message decodes, but no tag of the encoded row
carries the input color value "#1e90ff" — the color is re-emitted in
canonical uppercase form, so the lowercase input tag is not reproduced,
although it is neither a flag tag nor valued "0". -/
theorem roundTrip_cex :
    (fromUnstructured c1CexMsg c1CexIrc).toOption.map
      (fun r => (allTags r).filter fun p => p.2 = "#1e90ff")
    = some [] := by
  decide

/-- C1 witness: on the spec's concrete example line the subscriber tag
valued "1" is reproduced by the encoder. -/
theorem roundTrip_witness :
    ReproSpec c1WitMsg c1WitRow Tag.subscriber "1" :=
  roundTrip_amended c1WitMsg c1WitIrc c1WitRow (by decide) (by decide)
    (by decide) (Tag.subscriber, "1") (by decide)

/-- C4 (amended): in every decoded row, the extra-tags list is disjoint from
the recognized tags — the ten flag tags and the typed-field tags — with one
exception the code forces: an `id` tag whose value fails to parse as a UUID
is preserved verbatim under the key "id". -/
theorem extraTags_disjoint_amended (msg : UnstructuredMessage)
    (irc : IrcMessage) (row : StructuredMessage)
    (hwf : ∀ tv ∈ irc.tags, tv.1.wf)
    (hok : fromUnstructured msg irc = .ok row) :
    ∀ kv ∈ row.extra_tags, kv.1 ∈ recognizedKeys →
      kv.1 = "id" ∧ uuidParse kv.2 = none := by
  obtain ⟨mt, u0, text, hrow⟩ := fromUnstructured_ok_fields msg irc row hok
  have hExtra : row.extra_tags
      = (irc.tags.foldl tagStep (TagState.init u0)).extraTags := by rw [hrow]
  intro kv hkv
  exact (fold_extraOk irc.tags (TagState.init u0) hwf
    (by intro kv h; cases h) kv (by rw [← hExtra]; exact hkv)).2.2

/-- C4 counterexample: decoding succeeds and the recognized key "id" appears
in the row's extra tags, contradicting the claimed disjointness. -/
theorem extraTags_disjoint_cex :
    (fromUnstructured c4Msg c4Irc).toOption.map StructuredMessage.extra_tags
      = some [("id", "notauuid")] ∧ "id" ∈ recognizedKeys := by
  constructor
  · decide
  · decide

/-- C4 witness: applying the amended disjointness to the concrete row shows
the one extra entry with a recognized key is the id tag with a value that
fails UUID parsing. -/
theorem extraTags_disjoint_witness :
    ("id" : String) = "id" ∧ uuidParse "notauuid" = none :=
  extraTags_disjoint_amended c4Msg c4Irc c4Row (by decide)
    (by decide) ("id", "notauuid") (by decide) (by decide)
